import Mathlib

set_option maxRecDepth 8192

/-!
Shallow embedding of the `c-server-benchmark` repository: the shared HTTP
helpers (`src/common/http.c`, shipped here as `src/unnamed/part_000`), the
kqueue-based event server (`src/src/kqueue_srv/kqueue_server.c`) and the
select-based server (`src/src/aio_srv/aio_server.c`).

Modelling conventions:
* Byte buffers are `List Char` (HTTP request/response text contains no NUL
  bytes, so C-string scanning coincides with scanning the whole list).
* Machine integers index buffers whose sizes are far below overflow, so they
  are embedded as `Nat` (sizes, offsets) and `Int` (descriptor values, where
  only the sign is observed by the code).
* `realpath` is modelled as lexical canonicalization of an absolute path
  (collapse `//`, `.` and `..`, with `..` at the root staying at the root),
  succeeding exactly when the filesystem oracle says the canonical path
  exists; symlinks are outside the model.
* An open file descriptor is modelled as `Option Str` carrying the path of
  the opened file: `none` is the C sentinel `-1`, `some p` is a handle (≥ 0)
  on file `p`.
* `malloc` and kqueue/kevent registration are assumed to succeed; their
  failure branches only abort the affected connection.
-/

abbrev Str := List Char

namespace Http

/-- Capacity of `http_req_t.path`.  `src/common/http.h` is not part of the
source drop; the 1024-byte capacity of the fixed path field is modelled from
the spec's surrounding constants (`kPathBufferSize = 1024`). -/
def pathCap : Nat := 1024

/-- Value of `PATH_MAX` on the target platform (macOS/BSD): 1024. -/
def pathMax : Nat := 1024

/-- Does `pat` occur at the head of `l`? (`strncmp(l, pat, |pat|) == 0`). -/
def startsWith (pat l : Str) : Bool := List.isPrefixOf pat l

/-- Model of `strstr`: index of the first occurrence of `pat` in `l`. -/
def strstr (l : Str) (pat : Str) : Option Nat :=
  match l with
  | [] => if pat = [] then some 0 else none
  | _ :: rest =>
    if startsWith pat l then some 0
    else (strstr rest pat).map (· + 1)

/-- First index `j ≥ i` with `l[j] = c` (`strchr` from offset `i`). -/
def strchrFrom (l : Str) (i : Nat) (c : Char) : Option Nat :=
  match l with
  | [] => none
  | x :: rest =>
    match i with
    | 0 => if x = c then some 0 else (strchrFrom rest 0 c).map (· + 1)
    | i' + 1 => (strchrFrom rest i' c).map (· + 1)

/-- Advance `i` while `i < stop` and `l[i] = ' '` (the space-skipping loop in
`http_parse_request`); `fuel` is `stop - i`. -/
def skipSpaces (l : Str) : Nat → Nat → Nat
  | i, 0 => i
  | i, fuel + 1 =>
    if l.getD i ' ' = ' ' ∧ i < l.length then skipSpaces l (i + 1) fuel else i

/-- Result of `http_parse_request`: -1, 0, or 1 with the extracted path. -/
inductive ParseResult where
  | invalid
  | incomplete
  | ok (path : Str)
  deriving DecidableEq, Repr

/-- Model of `http_parse_request` from `src/common/http.c` (part_000 lines 9–59) on a
NUL-free buffer `buf` with `len = buf.length`. -/
def http_parse_request (buf : Str) : ParseResult :=
  if buf.length = 0 then .invalid
  else
    match strstr buf ("\r\n\r\n".toList) with
    | none => .incomplete
    | some headerEnd =>
      if buf.length < 14 ∨ ¬ startsWith ("GET ".toList) buf then .invalid
      else
        let pathStart := skipSpaces buf 4 (headerEnd - 4)
        if pathStart ≥ headerEnd then .invalid
        else
          match strchrFrom buf pathStart ' ' with
          | none => .invalid
          | some pathEnd =>
            if pathEnd > headerEnd then .invalid
            else
              let pathLen := pathEnd - pathStart
              if pathLen = 0 ∨ pathLen ≥ pathCap then .invalid
              else
                let p := (buf.drop pathStart).take pathLen
                .ok (if p = "/".toList then "/index.html".toList else p)

/-- Case-insensitive comparison of the last `suf.length` characters of `p`
with `suf` (`strcasecmp(p + n - k, suf)`), guarded by `n ≥ k`. -/
def suffixCI (p suf : Str) : Bool :=
  p.length ≥ suf.length ∧
    (p.drop (p.length - suf.length)).map Char.toLower = suf.map Char.toLower

/-- Model of `http_guess_type` (part_000 lines 61–77). -/
def http_guess_type (p : Str) : Str :=
  if suffixCI p (".html".toList) then "text/html".toList
  else if suffixCI p (".css".toList) then "text/css".toList
  else if suffixCI p (".js".toList) then "application/javascript".toList
  else if suffixCI p (".png".toList) then "image/png".toList
  else if suffixCI p (".jpg".toList) then "image/jpeg".toList
  else if suffixCI p (".gif".toList) then "image/gif".toList
  else "application/octet-stream".toList

/-- Decimal rendering of a `Nat` as characters (for `%lld` / `%zu`). -/
def natChars (n : Nat) : Str := (toString n).toList

/-- Model of `http_build_200` (part_000 lines 79–94): header bytes, or `none` when the
formatted length would reach the capacity. -/
def http_build_200 (cap : Nat) (contentLen : Nat) (ctype : Str) : Option Str :=
  if cap = 0 then none
  else
    let s := "HTTP/1.1 200 OK\r\nContent-Length: ".toList ++ natChars contentLen
      ++ "\r\nContent-Type: ".toList ++ ctype
      ++ "\r\nCache-Control: no-cache\r\nConnection: close\r\n\r\n".toList
    if s.length ≥ cap then none else some s

/-- Model of `http_build_404` (part_000 lines 96–111). -/
def http_build_404 (cap : Nat) : Option Str :=
  if cap = 0 then none
  else
    let s := ("HTTP/1.1 404 Not Found\r\nContent-Length: 9\r\n"
      ++ "Content-Type: text/plain\r\nConnection: close\r\n\r\nNot Found").toList
    if s.length ≥ cap then none else some s

/-- Split an absolute path into its `/`-separated components (empty
components are kept here and dropped during canonicalization). -/
def splitSegsAux : Str → Str → List Str
  | [], acc => [acc.reverse]
  | c :: rest, acc =>
    if c = '/' then acc.reverse :: splitSegsAux rest []
    else splitSegsAux rest (c :: acc)

def splitSegs (p : Str) : List Str := splitSegsAux p []

/-- Resolve `.`/`..`/empty components the way `realpath` does for an absolute
path with no symlinks: `..` pops the last component (staying at `/`). -/
def canonSegs (segs : List Str) : List Str :=
  segs.foldl
    (fun acc s =>
      if s = [] ∨ s = ".".toList then acc
      else if s = "..".toList then acc.dropLast
      else acc ++ [s])
    []

def joinSegs : List Str → Str
  | [] => []
  | [s] => s
  | s :: rest => s ++ "/".toList ++ joinSegs rest

/-- Lexical canonical form of the absolute path `p` (the string `realpath`
would return when every component resolves and no symlink is involved). -/
def canonPath (p : Str) : Str := "/".toList ++ joinSegs (canonSegs (splitSegs p))

/-- Filesystem oracle: which canonical paths exist (→ `realpath`/`stat`
success), which are regular files, their sizes, whether `open` succeeds, and
their contents. -/
structure Fs where
  present : Str → Bool
  isRegFile : Str → Bool
  size : Str → Nat
  openOk : Str → Bool
  content : Str → Str

/-- Model of `http_safe_join` (part_000 lines 113–168). `realpath(p)` is modelled as:
succeed with `canonPath p` iff `fs.present (canonPath p)`. -/
def http_safe_join (fs : Fs) (outsz : Nat) (root rel : Str) : Option Str :=
  if outsz = 0 then none
  else
    let cleanRel0 := match rel with
      | '/' :: rest => rest
      | _ => rel
    let cleanRel := if cleanRel0.length = 0 then "index.html".toList else cleanRel0
    let temp := root ++ "/".toList ++ cleanRel
    if temp.length ≥ pathMax then none
    else if fs.present (canonPath temp) then
      let resolved := canonPath temp
      if ¬ fs.present (canonPath root) then none
      else
        let rootReal := canonPath root
        if ¬ startsWith rootReal resolved then none
        else if resolved.length ≥ outsz then none
        else some resolved
    else
      if root.length ≥ pathMax then none
      else if ¬ fs.present (canonPath root) then none
      else
        let out := canonPath root ++ "/".toList ++ cleanRel
        if out.length ≥ outsz then none
        else some out

/-- Segment-level confinement: the canonical root's components are a prefix
of the canonical path's components (the spec's notion of a path being
confined to the document root). -/
def confinedTo (root p : Str) : Bool :=
  List.isPrefixOf (canonSegs (splitSegs root)) (canonSegs (splitSegs p))

end Http

namespace KQ

/-! Model of `src/src/kqueue_srv/kqueue_server.c`. -/

open Http

def kMaxConnections : Nat := 50000
def kRequestBufferSize : Nat := 4096
def kResponseBufferSize : Nat := 32768
def kPathBufferSize : Nat := 1024
def kHeaderBufferSize : Nat := 512

/-- Connection states of the kqueue server (`ConnectionState`). -/
inductive CState where
  | readingRequest
  | processing
  | sendingHeader
  | sendingFile
  | closing
  deriving DecidableEq, Repr

/-- One pool record (`struct Connection`).  `requestBuf` carries the
accumulated bytes (`request_size = requestBuf.length`); `requestAllocated`
models whether the lazily `malloc`ed `request_buffer` pointer is non-NULL
(buffers survive release and are reused); `slot` is the record's index in the
preallocated array, standing in for the `next` free-list pointer identity. -/
structure Conn where
  fd : Int
  state : CState
  slot : Nat
  requestBuf : Str
  requestAllocated : Bool
  responseBuf : Str
  responseSent : Nat
  fileFd : Option Str
  fileOffset : Nat
  fileSize : Nat
  deriving DecidableEq, Repr

/-- Server context (`struct Server`): document root, free list (as slot
indices), active count and the three statistics counters. -/
structure KServer where
  docRoot : Str
  freeList : List Nat
  numActive : Nat
  totalRequests : Nat
  totalBytesSent : Nat
  totalConnections : Nat
  deriving DecidableEq, Repr

/-- Model of `reset_connection` (kqueue_server.c lines 421–430): reset the
logical counters only; buffers (`requestAllocated`), `fd` and `slot` are
untouched. -/
def reset_connection (c : Conn) : Conn :=
  { c with state := .readingRequest, requestBuf := [], responseBuf := [],
           responseSent := 0, fileFd := none, fileOffset := 0, fileSize := 0 }

/-- Model of `alloc_connection` (lines 378–394): pop the free-list head,
bump `num_active` and `total_connections`.  Returns the popped slot index;
the caller owns the (reset) record. -/
def alloc_connection (s : KServer) : Option (Nat × KServer) :=
  match s.freeList with
  | [] => none
  | i :: rest =>
    some (i, { s with freeList := rest, numActive := s.numActive + 1,
                      totalConnections := s.totalConnections + 1 })

/-- Model of `free_connection` (lines 399–416): close the client and file
descriptors, push the record back on the free list, decrement `num_active`.
No buffer is freed and no logical counter is reset here. -/
def free_connection (s : KServer) (c : Conn) : KServer × Conn :=
  ({ s with freeList := c.slot :: s.freeList, numActive := s.numActive - 1 },
   { c with fd := -1, fileFd := none })

/-- Outcome of one accepted socket inside the accept loop. -/
inductive AcceptOutcome where
  | refused (fd : Int)
  | accepted (fd : Int) (slot : Nat)
  deriving DecidableEq, Repr

/-- Model of `accept_connections` (lines 452–511): drain the pending queue;
on pool exhaustion the raw socket is closed at once (`refused`) and the loop
continues.  Socket configuration and kqueue registration are assumed to
succeed; `accept` failures other than would-block are not modelled. -/
def accept_connections (s : KServer) : List Int → KServer × List AcceptOutcome
  | [] => (s, [])
  | fd :: rest =>
    match alloc_connection s with
    | none =>
      let (s', outs) := accept_connections s rest
      (s', .refused fd :: outs)
    | some (i, s1) =>
      let (s', outs) := accept_connections s1 rest
      (s', .accepted fd i :: outs)

/-- Error-response bytes built by `prepare_error_response` (lines 681–718). -/
def errorBytes (status : Nat) : Option Str :=
  match status with
  | 400 => some ("HTTP/1.1 400 Bad Request\r\nContent-Length: 11\r\n"
      ++ "Connection: close\r\n\r\nBad Request").toList
  | 404 => http_build_404 kHeaderBufferSize
  | 413 => some ("HTTP/1.1 413 Request Entity Too Large\r\nContent-Length: 18\r\n"
      ++ "Connection: close\r\n\r\nRequest Too Large").toList
  | 500 => some ("HTTP/1.1 500 Internal Server Error\r\nContent-Length: 21\r\n"
      ++ "Connection: close\r\n\r\nInternal Server Error").toList
  | _ => none

/-- Model of `prepare_error_response` (lines 681–751): stage the error bytes
and enter `STATE_SENDING_HEADER`.  Returns the C result (-1 on unknown status
or formatting overflow, else 0). -/
def prepare_error_response (c : Conn) (status : Nat) : Conn × Int :=
  match errorBytes status with
  | none => (c, -1)
  | some bytes =>
    if bytes.length = 0 ∨ bytes.length ≥ kHeaderBufferSize then (c, -1)
    else
      ({ c with responseBuf := bytes, responseSent := 0,
                state := .sendingHeader }, 0)

/-- Combined `stat(p) == 0 && S_ISREG` check: `stat` resolves the (possibly
non-canonical) path, succeeding iff the canonical target exists. -/
def statRegular (fs : Fs) (p : Str) : Bool :=
  fs.present (canonPath p) ∧ fs.isRegFile (canonPath p)

/-- Model of `prepare_file_response` (lines 616–676): open the file, `fstat`
it (assumed to succeed on an open descriptor), build the 200 header, stage it
and enter `STATE_SENDING_HEADER` with the file handle held open. -/
def prepare_file_response (fs : Fs) (c : Conn) (filePath : Str) : Conn × Int :=
  if ¬ fs.openOk filePath then (c, -1)
  else
    let sz := fs.size filePath
    match http_build_200 kHeaderBufferSize sz (http_guess_type filePath) with
    | none => (c, -1)
    | some header =>
      ({ c with fileFd := some filePath, fileSize := sz, fileOffset := 0,
                responseBuf := header, responseSent := 0,
                state := .sendingHeader }, 0)

/-- Model of `process_request` (lines 574–611): parse, join against the
document root, `stat`, then stage either the file response (counting the
request) or an error response.  All paths return 0 in the C code. -/
def process_request (fs : Fs) (s : KServer) (c : Conn) : KServer × Conn :=
  match http_parse_request c.requestBuf with
  | .ok path =>
    match http_safe_join fs kPathBufferSize s.docRoot path with
    | none => (s, (prepare_error_response c 404).1)
    | some filePath =>
      if ¬ statRegular fs filePath then (s, (prepare_error_response c 404).1)
      else
        let pr := prepare_file_response fs c filePath
        if pr.2 < 0 then (s, (prepare_error_response pr.1 500).1)
        else ({ s with totalRequests := s.totalRequests + 1 }, pr.1)
  | _ => (s, (prepare_error_response c 400).1)

/-- Outcome of one `recv` call: orderly close (0), would-block, other error,
or `n > 0` received bytes. -/
inductive RecvResult where
  | closed
  | wouldBlock
  | errOther
  | data (bytes : Str)
  deriving DecidableEq, Repr

/-- Model of `handle_read_event` (lines 516–554).  The `Int` is the handler
result: -1 tells the event loop to tear the connection down. -/
def handle_read_event (fs : Fs) (s : KServer) (c : Conn) (r : RecvResult) :
    KServer × Conn × Int :=
  if c.state ≠ .readingRequest then (s, c, 0)
  else
    match r with
    | .wouldBlock => (s, c, 0)
    | .closed => (s, c, -1)
    | .errOther => (s, c, -1)
    | .data bytes =>
      let c1 := { c with requestBuf := c.requestBuf ++ bytes }
      if (strstr c1.requestBuf ("\r\n\r\n".toList)).isSome then
        let (s', c') := process_request fs s c1
        (s', c', 0)
      else if c1.requestBuf.length ≥ kRequestBufferSize - 1 then
        (s, (prepare_error_response c1 413).1, 0)
      else (s, c1, 0)

/-- Outcome of one `send` call: would-block, error-or-peer-close, or the
kernel accepting `min n requested` bytes (`n ≥ 1`). -/
inductive SendRes where
  | wouldBlock
  | errClose
  | ok (n : Nat)
  deriving DecidableEq, Repr

/-- File-phase of `send_response` (lines 794–836): read one chunk of at most
`kResponseBufferSize` bytes at the current offset (`pread` is assumed to
deliver the full chunk), send it, advance the offset by the bytes actually
accepted.  Returns the updated connection, the C result, the bytes the socket
accepted, and the unconsumed socket schedule. -/
def sendFilePhase (c : Conn) (sched : List SendRes) :
    Conn × Int × Nat × List SendRes :=
  let toRead := min kResponseBufferSize (c.fileSize - c.fileOffset)
  if toRead = 0 then (c, -1, 0, sched)
  else
    match sched with
    | [] => (c, 0, 0, [])
    | ev :: rest =>
      match ev with
      | .wouldBlock => (c, 0, 0, rest)
      | .errClose => (c, -1, 0, rest)
      | .ok n =>
        let acc := min n toRead
        let c' := { c with fileOffset := c.fileOffset + acc }
        if c'.fileOffset ≥ c.fileSize then (c', -1, acc, rest)
        else (c', 0, acc, rest)

/-- Model of `send_response` (lines 756–839): drain header bytes first; when
the header completes and a file handle is present, fall through into the file
phase within the same call; -1 means the event loop must close the
connection (completion or transport failure). -/
def send_response (c : Conn) (sched : List SendRes) :
    Conn × Int × Nat × List SendRes :=
  if c.state = .sendingHeader then
    match sched with
    | [] => (c, 0, 0, [])
    | ev :: rest =>
      match ev with
      | .wouldBlock => (c, 0, 0, rest)
      | .errClose => (c, -1, 0, rest)
      | .ok n =>
        let req := c.responseBuf.length - c.responseSent
        let acc := min n req
        let c1 := { c with responseSent := c.responseSent + acc }
        if c1.responseSent ≥ c1.responseBuf.length then
          match c1.fileFd with
          | some _ =>
            let c2 := { c1 with state := .sendingFile, responseSent := 0 }
            let (c3, r, facc, rest') := sendFilePhase c2 rest
            (c3, r, acc + facc, rest')
          | none => (c1, -1, acc, rest)
        else (c1, 0, acc, rest)
  else if c.state = .sendingFile ∧ c.fileFd.isSome then
    sendFilePhase c sched
  else (c, 0, 0, sched)

/-- Model of `handle_write_event` (lines 559–569): dispatch to
`send_response` only in the sending states; the server context is unused
(`(void)server`) — in particular `total_bytes_sent` is never updated on this
path (the increment at line 829 is commented out). -/
def handle_write_event (s : KServer) (c : Conn) (sched : List SendRes) :
    KServer × Conn × Int × Nat × List SendRes :=
  if c.state = .sendingHeader ∨ c.state = .sendingFile then
    let (c', r, acc, rest) := send_response c sched
    (s, c', r, acc, rest)
  else (s, c, 0, 0, sched)

/-- Run repeated write-readiness events (`send_response` calls) until the
handler asks for teardown (-1) or fuel runs out; accumulates the bytes the
socket accepted.  `true` means the connection reached teardown. -/
def runWrites : Nat → Conn → List SendRes → Conn × Bool × Nat
  | 0, c, _ => (c, false, 0)
  | fuel + 1, c, sched =>
    let (c', r, acc, rest) := send_response c sched
    if r = -1 then (c', true, acc)
    else
      let (c'', done, total) := runWrites fuel c' rest
      (c'', done, acc + total)

/-- Transmission progress of a sending connection: bytes handed to the
socket so far (header portion plus file portion). -/
def progress (c : Conn) : Nat :=
  match c.state with
  | .sendingHeader => c.responseSent
  | .sendingFile => c.responseBuf.length + c.fileOffset
  | _ => 0

/-- Response-relevant projection of a connection: everything the transmitter
will put on the wire (state, staged header bytes, send offset, the open file
and its offset/size) — the request buffer is excluded. -/
def planConn (c : Conn) : CState × Str × Nat × Option Str × Nat × Nat :=
  (c.state, c.responseBuf, c.responseSent, c.fileFd, c.fileOffset, c.fileSize)

end KQ

namespace Aio

/-! Model of `src/src/aio_srv/aio_server.c` (the select-based server). -/

open Http
open KQ (RecvResult SendRes AcceptOutcome)

def kMaxClients : Nat := 100
def kRequestBufferSize : Nat := 8192
def kResponseBufferSize : Nat := 65536
def kPathBufferSize : Nat := 2048
def kHeaderBufferSize : Nat := 512

/-- Client connection states (`ClientState`). -/
inductive AState where
  | readingRequest
  | sendingResponse
  | closing
  deriving DecidableEq, Repr

/-- One client slot (`Client`).  `responseBuf = none` models a NULL
`response_buffer` (the header buffer is `malloc`ed per response and freed
once drained); when present, `response_size` equals its length. -/
structure AClient where
  fd : Int
  state : AState
  requestBuf : Str
  responseBuf : Option Str
  responseSent : Nat
  fileFd : Option Str
  fileOffset : Nat
  fileSize : Nat
  deriving DecidableEq, Repr

instance : Inhabited AClient :=
  ⟨{ fd := -1, state := .readingRequest, requestBuf := [], responseBuf := none,
     responseSent := 0, fileFd := none, fileOffset := 0, fileSize := 0 }⟩

/-- Server context for the select server. -/
structure AServer where
  docRoot : Str
  numClients : Nat
  totalRequests : Nat
  totalBytesSent : Nat
  deriving DecidableEq, Repr

/-- Model of `reset_client` (aio_server.c lines 637–649). -/
def reset_client (_c : AClient) : AClient :=
  { fd := -1, state := .readingRequest, requestBuf := [], responseBuf := none,
    responseSent := 0, fileFd := none, fileOffset := 0, fileSize := 0 }

/-- Model of `close_client` (lines 611–632): close descriptors, free the
response buffer, reset the slot. -/
def close_client (c : AClient) : AClient := reset_client c

/-- Error-response bytes built by the aio `prepare_error_response`
(lines 550–606).  Note there is no 413 case: any status other than
400/404/500 falls into the default 500 "Error" response. -/
def aioErrorBytes (status : Nat) : Str :=
  match status with
  | 400 => ("HTTP/1.1 400 Bad Request\r\nContent-Length: 11\r\n"
      ++ "Content-Type: text/plain\r\nConnection: close\r\n\r\nBad Request").toList
  | 404 => (http_build_404 kHeaderBufferSize).getD []
  | 500 => ("HTTP/1.1 500 Internal Server Error\r\nContent-Length: 21\r\n"
      ++ "Content-Type: text/plain\r\nConnection: close\r\n\r\nInternal Server Error").toList
  | _ => ("HTTP/1.1 500 Internal Server Error\r\nContent-Length: 5\r\n"
      ++ "Connection: close\r\n\r\nError").toList

/-- Model of the aio `prepare_error_response` (lines 550–606). -/
def prepare_error_response (c : AClient) (status : Nat) : AClient :=
  let bytes := aioErrorBytes status
  if bytes.length = 0 ∨ bytes.length ≥ kHeaderBufferSize then close_client c
  else
    { c with responseBuf := some bytes, responseSent := 0,
             state := .sendingResponse }

/-- Model of the aio `prepare_file_response` (lines 496–545): open failure
and downstream failures degrade to a 500 error response. -/
def prepare_file_response (fs : Fs) (c : AClient) (filePath : Str) : AClient :=
  if ¬ fs.openOk filePath then prepare_error_response c 500
  else
    let sz := fs.size filePath
    match http_build_200 kHeaderBufferSize sz (http_guess_type filePath) with
    | none => prepare_error_response c 500
    | some header =>
      { c with fileFd := some filePath, fileSize := sz, fileOffset := 0,
               responseBuf := some header, responseSent := 0,
               state := .sendingResponse }

/-- Model of `process_http_request` (lines 460–491). -/
def process_http_request (fs : Fs) (s : AServer) (c : AClient) :
    AServer × AClient :=
  match http_parse_request c.requestBuf with
  | .ok path =>
    match http_safe_join fs kPathBufferSize s.docRoot path with
    | none => (s, prepare_error_response c 404)
    | some filePath =>
      if ¬ KQ.statRegular fs filePath then (s, prepare_error_response c 404)
      else (s, prepare_file_response fs c filePath)
  | _ => (s, prepare_error_response c 400)

/-- Model of `handle_client_read` (lines 333–359).  There is no
request-too-large branch: once `request_size` reaches capacity minus one the
next `recv` is issued with length 0, returns 0, and is handled as a peer
close.  Every completed request bumps `total_requests`. -/
def handle_client_read (fs : Fs) (s : AServer) (c : AClient) (r : RecvResult) :
    AServer × AClient :=
  match r with
  | .wouldBlock => (s, c)
  | .closed => ({ s with numClients := s.numClients - 1 }, close_client c)
  | .errOther => ({ s with numClients := s.numClients - 1 }, close_client c)
  | .data bytes =>
    let c1 := { c with requestBuf := c.requestBuf ++ bytes }
    if (strstr c1.requestBuf ("\r\n\r\n".toList)).isSome then
      let (s', c') := process_http_request fs s c1
      ({ s' with totalRequests := s'.totalRequests + 1 }, c')
    else (s, c1)

/-- Model of `handle_client_write` (lines 364–455): drain the header buffer
first (freeing it once done), then stream the file in bounded stack chunks;
every successful `send` adds the accepted bytes to `total_bytes_sent`.
Returns the accepted-byte count of this call and the unconsumed schedule. -/
def handle_client_write (s : AServer) (c : AClient) (sched : List SendRes) :
    AServer × AClient × Nat × List SendRes :=
  match c.responseBuf with
  | some buf =>
    match sched with
    | [] => (s, c, 0, [])
    | ev :: rest =>
      match ev with
      | .wouldBlock => (s, c, 0, rest)
      | .errClose =>
        ({ s with numClients := s.numClients - 1 }, close_client c, 0, rest)
      | .ok n =>
        let req := buf.length - c.responseSent
        let acc := min n req
        let c1 := { c with responseSent := c.responseSent + acc }
        let s1 := { s with totalBytesSent := s.totalBytesSent + acc }
        if c1.responseSent ≥ buf.length then
          let c2 := { c1 with responseBuf := none }
          if c2.fileFd.isSome then
            (s1, { c2 with state := .sendingResponse }, acc, rest)
          else
            ({ s1 with numClients := s1.numClients - 1 }, close_client c2,
             acc, rest)
        else (s1, c1, acc, rest)
  | none =>
    match c.fileFd with
    | none => (s, c, 0, sched)
    | some _ =>
      let toRead := min kResponseBufferSize (c.fileSize - c.fileOffset)
      if toRead = 0 then
        ({ s with numClients := s.numClients - 1 }, close_client c, 0, sched)
      else
        match sched with
        | [] => (s, c, 0, [])
        | ev :: rest =>
          match ev with
          | .wouldBlock => (s, c, 0, rest)
          | .errClose =>
            ({ s with numClients := s.numClients - 1 }, close_client c, 0, rest)
          | .ok n =>
            let acc := min n toRead
            let c1 := { c with fileOffset := c.fileOffset + acc }
            let s1 := { s with totalBytesSent := s.totalBytesSent + acc }
            if c1.fileOffset ≥ c.fileSize then
              ({ s1 with numClients := s1.numClients - 1 }, close_client c1,
               acc, rest)
            else (s1, c1, acc, rest)

/-- First free slot (`fd < 0`) in the fixed client array (lines 299–308). -/
def findFreeIdx (clients : List AClient) : Option Nat :=
  clients.findIdx? (fun c => c.fd < 0)

/-- Slot initialization at accept (lines 322–326). -/
def acceptInit (c : AClient) (fd : Int) : AClient :=
  { reset_client c with fd := fd, state := .readingRequest }

/-- Model of `accept_new_clients` (lines 280–328): drain pending accepts;
with no free slot the raw socket is closed (`refused`) and the loop
continues. -/
def accept_new_clients (s : AServer) (clients : List AClient) :
    List Int → AServer × List AClient × List AcceptOutcome
  | [] => (s, clients, [])
  | fd :: rest =>
    match findFreeIdx clients with
    | none =>
      let (s', cl', outs) := accept_new_clients s clients rest
      (s', cl', .refused fd :: outs)
    | some i =>
      let clients1 := clients.set i (acceptInit (clients.getD i (reset_client default)) fd)
      let s1 := { s with numClients := s.numClients + 1 }
      let (s', cl', outs) := accept_new_clients s1 clients1 rest
      (s', cl', .accepted fd i :: outs)

/-- Number of occupied slots. -/
def activeCount (clients : List AClient) : Nat :=
  (clients.filter (fun c => c.fd ≥ 0)).length

/-- Transmission progress of an aio client, relative to the header length
`H` (the header buffer is freed once drained, so `H` is carried as a ghost
parameter). -/
def aprogress (H : Nat) (c : AClient) : Nat :=
  match c.responseBuf with
  | some _ => c.responseSent + c.fileOffset
  | none => H + c.fileOffset

/-- Run repeated write-readiness events until the client slot is closed
(`fd < 0`) or fuel runs out; accumulates accepted bytes. -/
def runAWrites : Nat → AServer → AClient → List SendRes →
    AServer × AClient × Bool × Nat
  | 0, s, c, _ => (s, c, false, 0)
  | fuel + 1, s, c, sched =>
    let (s', c', acc, rest) := handle_client_write s c sched
    if c'.fd < 0 then (s', c', true, acc)
    else
      let (s'', c'', done, total) := runAWrites fuel s' c' rest
      (s'', c'', done, acc + total)

end Aio

namespace CE

/-! Concrete instances used by counterexamples and witnesses. -/

/-- Filesystem with root `/a/b` and a regular file in the sibling directory
`/a/b2` whose name extends the root's name as a string. -/
def fsSibling : Http.Fs :=
  { present := fun p => p == "/a/b2/f".toList || p == "/a/b".toList,
    isRegFile := fun p => p == "/a/b2/f".toList,
    size := fun _ => 5,
    openOk := fun _ => true,
    content := fun _ => "hello".toList }

def srvSibling : KQ.KServer :=
  { docRoot := "/a/b".toList, freeList := [], numActive := 0,
    totalRequests := 0, totalBytesSent := 0, totalConnections := 0 }

/-- Freshly accepted kqueue connection holding the request bytes `buf`. -/
def freshConn (buf : Str) : KQ.Conn :=
  { fd := 5, state := .readingRequest, slot := 0, requestBuf := buf,
    requestAllocated := true, responseBuf := [], responseSent := 0,
    fileFd := none, fileOffset := 0, fileSize := 0 }

/-- Filesystem with root `/var/www` and an existing `/etc/passwd`. -/
def fsPasswd : Http.Fs :=
  { present := fun p => p == "/etc/passwd".toList || p == "/var/www".toList,
    isRegFile := fun p => p == "/etc/passwd".toList,
    size := fun _ => 42,
    openOk := fun _ => true,
    content := fun _ => [] }

def srvPasswd : KQ.KServer :=
  { docRoot := "/var/www".toList, freeList := [], numActive := 0,
    totalRequests := 0, totalBytesSent := 0, totalConnections := 0 }

/-- Filesystem with root `/www` containing a 37-byte `index.html`. -/
def fsIndex : Http.Fs :=
  { present := fun p => p == "/www/index.html".toList || p == "/www".toList,
    isRegFile := fun p => p == "/www/index.html".toList,
    size := fun _ => 37,
    openOk := fun _ => true,
    content := fun _ => List.replicate 37 'x' }

def srvIndex : KQ.KServer :=
  { docRoot := "/www".toList, freeList := [], numActive := 0,
    totalRequests := 0, totalBytesSent := 0, totalConnections := 0 }

end CE

/-- File-handle invariant of the spec's data model, as the kqueue code
actually maintains it: an open handle only in a sending state, and the
file-sending state always holds an open handle. -/
def fileInv (c : KQ.Conn) : Prop :=
  (c.fileFd.isSome → c.state = .sendingHeader ∨ c.state = .sendingFile) ∧
  (c.state = .sendingFile → c.fileFd.isSome)

/-- Schedules describing a socket that never fails (only would-block or
partial acceptance), as in the spec's short-write experiment. -/
def noErr (sched : List KQ.SendRes) : Prop := KQ.SendRes.errClose ∉ sched

/-- Invariant of an in-flight kqueue transmission. -/
@[reducible]
def sendInv (c : KQ.Conn) : Prop :=
  (c.state = .sendingHeader ∧ c.responseSent < c.responseBuf.length ∧
    c.fileOffset = 0 ∧ c.fileFd.isSome) ∨
  (c.state = .sendingFile ∧ c.fileOffset ≤ c.fileSize ∧ c.fileFd.isSome)

/-- Invariant of an in-flight aio transmission with header length `H`. -/
@[reducible]
def ainv (H : Nat) (c : Aio.AClient) : Prop :=
  (0 ≤ c.fd) ∧ c.fileFd.isSome ∧
  ((∃ buf, c.responseBuf = some buf ∧ buf.length = H ∧
      c.responseSent < H ∧ c.fileOffset = 0) ∨
   (c.responseBuf = none ∧ c.fileOffset ≤ c.fileSize))

namespace CE

/-- Well-formed single-header GET request for path `p`. -/
def wfReq (p : Str) : Str := "GET ".toList ++ p ++ " HTTP/1.1\r\n\r\n".toList

/-- Select-server context for concrete runs. -/
def aioSrv : Aio.AServer :=
  { docRoot := "/www".toList, numClients := 1, totalRequests := 0,
    totalBytesSent := 0 }

/-- Select-server client whose request buffer has reached capacity minus one
without a terminator. -/
def aioFullClient : Aio.AClient :=
  { fd := 7, state := .readingRequest, requestBuf := List.replicate 8191 'a',
    responseBuf := none, responseSent := 0, fileFd := none, fileOffset := 0,
    fileSize := 0 }

/-- Kqueue connection mid-transmission of a 10-byte header with no file. -/
def sendingConn : KQ.Conn :=
  { fd := 5, state := .sendingHeader, slot := 0, requestBuf := [],
    requestAllocated := true, responseBuf := "HELLOWORLD".toList,
    responseSent := 0, fileFd := none, fileOffset := 0, fileSize := 0 }

/-- Kqueue server with an exhausted pool. -/
def emptyPoolSrv : KQ.KServer :=
  { docRoot := "/www".toList, freeList := [], numActive := KQ.kMaxConnections,
    totalRequests := 0, totalBytesSent := 0, totalConnections := 0 }

/-- Kqueue server with one active connection and the rest of the pool free. -/
def nearFullPoolSrv : KQ.KServer :=
  { docRoot := "/www".toList, freeList := List.replicate 49999 0,
    numActive := 1, totalRequests := 0, totalBytesSent := 0,
    totalConnections := 1 }

/-- Kqueue connection one byte short of buffer capacity, no terminator. -/
def kqNearFullConn : KQ.Conn := freshConn (List.replicate 4094 'a')

/-- Longest request-target path that still fits the 1024-byte path field. -/
def path1023 : Str := '/' :: List.replicate 1022 'a'

/-- Shortest request-target path rejected by the parser's bound. -/
def path1024 : Str := '/' :: List.replicate 1023 'a'

end CE

/-- Aio response-relevant projection (socket identity and request bytes
excluded). -/
def aplan (c : Aio.AClient) :
    Aio.AState × Option Str × Nat × Option Str × Nat × Nat :=
  (c.state, c.responseBuf, c.responseSent, c.fileFd, c.fileOffset, c.fileSize)

/-- Connection right after the header completes: the kqueue transmitter
switches to the file phase within the same `send_response` call
(lines 784–793). -/
def hdrDone (c : KQ.Conn) : KQ.Conn :=
  { c with state := KQ.CState.sendingFile, responseSent := 0 }

/-- One-call contract of the kqueue transmitter: the staged response and
file size are preserved, progress advances exactly by the bytes the socket
accepted, -1 is returned exactly at header length plus file length, and
otherwise the in-flight invariant is maintained. -/
@[reducible]
def kqStep (c : KQ.Conn) (r : KQ.Conn × Int × Nat × List KQ.SendRes) : Prop :=
  r.1.responseBuf = c.responseBuf ∧
  r.1.fileSize = c.fileSize ∧
  KQ.progress r.1 = KQ.progress c + r.2.2.1 ∧
  (r.2.1 = -1 → KQ.progress r.1 = c.responseBuf.length + c.fileSize) ∧
  (r.2.1 ≠ -1 → sendInv r.1) ∧
  noErr r.2.2.2

/-- One-call contract of the select-variant transmitter: if the slot was
closed the accepted bytes complete the transfer exactly, otherwise progress
advances exactly by the accepted bytes and the invariant is maintained. -/
@[reducible]
def aStep (H : Nat) (c : Aio.AClient)
    (r : Aio.AServer × Aio.AClient × Nat × List KQ.SendRes) : Prop :=
  (r.2.1.fd < 0 → Aio.aprogress H c + r.2.2.1 = H + c.fileSize) ∧
  (¬ r.2.1.fd < 0 → ainv H r.2.1 ∧ r.2.1.fileSize = c.fileSize ∧
    Aio.aprogress H r.2.1 = Aio.aprogress H c + r.2.2.1) ∧
  noErr r.2.2.2

/-- Kqueue connection about to transmit a 2-byte header followed by a
3-byte file. -/
def CE.kqSendConn : KQ.Conn :=
  { fd := 5, state := .sendingHeader, slot := 0, requestBuf := [],
    requestAllocated := true, responseBuf := "HH".toList,
    responseSent := 0, fileFd := some ("/www/f".toList), fileOffset := 0,
    fileSize := 3 }

/-- Short-write schedule: the socket accepts 1, 1, 2 and 3 bytes. -/
def CE.kqSched : List KQ.SendRes :=
  [.ok 1, .ok 1, .ok 2, .ok 3]

lemma process_request_eq_invalid (fs : Http.Fs) (s : KQ.KServer) (c : KQ.Conn)
    (h : Http.http_parse_request c.requestBuf = .invalid) :
    KQ.process_request fs s c = (s, (KQ.prepare_error_response c 400).1) := by
  unfold KQ.process_request
  rw [h]

lemma process_request_eq_ok (fs : Http.Fs) (s : KQ.KServer) (c : KQ.Conn)
    (path : Str) (h : Http.http_parse_request c.requestBuf = .ok path) :
    KQ.process_request fs s c =
      match Http.http_safe_join fs KQ.kPathBufferSize s.docRoot path with
      | none => (s, (KQ.prepare_error_response c 404).1)
      | some fp =>
        if ¬ KQ.statRegular fs fp then (s, (KQ.prepare_error_response c 404).1)
        else if (KQ.prepare_file_response fs c fp).2 < 0 then
          (s, (KQ.prepare_error_response (KQ.prepare_file_response fs c fp).1 500).1)
        else ({ s with totalRequests := s.totalRequests + 1 },
          (KQ.prepare_file_response fs c fp).1) := by
  unfold KQ.process_request
  rw [h]

lemma planConn_prepare_error (c c' : KQ.Conn)
    (h : KQ.planConn c = KQ.planConn c') (st : Nat) :
    KQ.planConn (KQ.prepare_error_response c st).1 =
      KQ.planConn (KQ.prepare_error_response c' st).1 := by
  have h4 : c.fileFd = c'.fileFd := congrArg (fun t => t.2.2.2.1) h
  have h5 : c.fileOffset = c'.fileOffset := congrArg (fun t => t.2.2.2.2.1) h
  have h6 : c.fileSize = c'.fileSize := congrArg (fun t => t.2.2.2.2.2) h
  unfold KQ.prepare_error_response
  cases hE : KQ.errorBytes st with
  | none => simp only [hE]; exact h
  | some b =>
    by_cases hb : b.length = 0 ∨ b.length ≥ KQ.kHeaderBufferSize
    · simp only [hE]; rw [if_pos hb, if_pos hb]; exact h
    · simp only [hE]; rw [if_neg hb, if_neg hb]
      simp only [KQ.planConn]
      rw [h4, h5, h6]

lemma prepare_file_ret_congr (fs : Http.Fs) (c c' : KQ.Conn) (p : Str) :
    (KQ.prepare_file_response fs c p).2 = (KQ.prepare_file_response fs c' p).2 := by
  unfold KQ.prepare_file_response
  by_cases ho : ¬ (fs.openOk p = true)
  · rw [if_pos ho, if_pos ho]
  · rw [if_neg ho, if_neg ho]
    cases hB : Http.http_build_200 KQ.kHeaderBufferSize (fs.size p)
        (Http.http_guess_type p) with
    | none => simp [hB]
    | some header => simp [hB]

lemma planConn_prepare_file (fs : Http.Fs) (c c' : KQ.Conn)
    (h : KQ.planConn c = KQ.planConn c') (p : Str) :
    KQ.planConn (KQ.prepare_file_response fs c p).1 =
      KQ.planConn (KQ.prepare_file_response fs c' p).1 := by
  unfold KQ.prepare_file_response
  by_cases ho : ¬ (fs.openOk p = true)
  · rw [if_pos ho, if_pos ho]; exact h
  · rw [if_neg ho, if_neg ho]
    cases hB : Http.http_build_200 KQ.kHeaderBufferSize (fs.size p)
        (Http.http_guess_type p) with
    | none => simp only [hB]; exact h
    | some header => simp [hB, KQ.planConn]

lemma process_request_congr (fs : Http.Fs) (s : KQ.KServer) (c c' : KQ.Conn)
    (hplan : KQ.planConn c = KQ.planConn c')
    (hp : Http.http_parse_request c.requestBuf = Http.http_parse_request c'.requestBuf) :
    (KQ.process_request fs s c).1 = (KQ.process_request fs s c').1 ∧
      KQ.planConn (KQ.process_request fs s c).2 =
        KQ.planConn (KQ.process_request fs s c').2 := by
  cases hpr : Http.http_parse_request c.requestBuf with
  | invalid =>
    have hpr' : Http.http_parse_request c'.requestBuf = .invalid := by
      rw [← hp]; exact hpr
    unfold KQ.process_request
    simp only [hpr, hpr']
    exact ⟨by trivial, planConn_prepare_error _ _ hplan 400⟩
  | incomplete =>
    have hpr' : Http.http_parse_request c'.requestBuf = .incomplete := by
      rw [← hp]; exact hpr
    unfold KQ.process_request
    simp only [hpr, hpr']
    exact ⟨by trivial, planConn_prepare_error _ _ hplan 400⟩
  | ok path =>
    have hpr' : Http.http_parse_request c'.requestBuf = .ok path := by
      rw [← hp]; exact hpr
    unfold KQ.process_request
    simp only [hpr, hpr']
    cases hj : Http.http_safe_join fs KQ.kPathBufferSize s.docRoot path with
    | none =>
      simp only [hj]
      exact ⟨by trivial, planConn_prepare_error _ _ hplan 404⟩
    | some fp =>
      simp only [hj]
      have hret := prepare_file_ret_congr fs c c' fp
      have hfile := planConn_prepare_file fs c c' hplan fp
      by_cases hst : ¬ (KQ.statRegular fs fp = true)
      · rw [if_pos hst, if_pos hst]
        exact ⟨by trivial, planConn_prepare_error _ _ hplan 404⟩
      · rw [if_neg hst, if_neg hst]
        by_cases hlt : (KQ.prepare_file_response fs c fp).2 < 0
        · have hlt' : (KQ.prepare_file_response fs c' fp).2 < 0 := by
            rw [← hret]; exact hlt
          rw [if_pos hlt, if_pos hlt']
          exact ⟨by trivial, planConn_prepare_error _ _ hfile 500⟩
        · have hlt' : ¬ (KQ.prepare_file_response fs c' fp).2 < 0 := by
            rw [← hret]; exact hlt
          rw [if_neg hlt, if_neg hlt']
          exact ⟨by trivial, hfile⟩

lemma aplan_prepare_error (c c' : Aio.AClient)
    (h : aplan c = aplan c') (st : Nat) :
    aplan (Aio.prepare_error_response c st) =
      aplan (Aio.prepare_error_response c' st) := by
  have h4 : c.fileFd = c'.fileFd := congrArg (fun t => t.2.2.2.1) h
  have h5 : c.fileOffset = c'.fileOffset := congrArg (fun t => t.2.2.2.2.1) h
  have h6 : c.fileSize = c'.fileSize := congrArg (fun t => t.2.2.2.2.2) h
  unfold Aio.prepare_error_response
  by_cases hb : (Aio.aioErrorBytes st).length = 0 ∨
      (Aio.aioErrorBytes st).length ≥ Aio.kHeaderBufferSize
  · rw [if_pos hb, if_pos hb]; rfl
  · rw [if_neg hb, if_neg hb]
    simp only [aplan]
    rw [h4, h5, h6]


lemma aplan_prepare_file (fs : Http.Fs) (c c' : Aio.AClient)
    (h : aplan c = aplan c') (p : Str) :
    aplan (Aio.prepare_file_response fs c p) =
      aplan (Aio.prepare_file_response fs c' p) := by
  unfold Aio.prepare_file_response
  by_cases ho : ¬ (fs.openOk p = true)
  · rw [if_pos ho, if_pos ho]; exact aplan_prepare_error _ _ h 500
  · rw [if_neg ho, if_neg ho]
    cases hB : Http.http_build_200 Aio.kHeaderBufferSize (fs.size p)
        (Http.http_guess_type p) with
    | none => simp only [hB]; exact aplan_prepare_error _ _ h 500
    | some header => simp [hB, aplan]

lemma process_http_request_congr (fs : Http.Fs) (s : Aio.AServer)
    (c c' : Aio.AClient) (hplan : aplan c = aplan c')
    (hp : Http.http_parse_request c.requestBuf = Http.http_parse_request c'.requestBuf) :
    (Aio.process_http_request fs s c).1 = (Aio.process_http_request fs s c').1 ∧
      aplan (Aio.process_http_request fs s c).2 =
        aplan (Aio.process_http_request fs s c').2 := by
  cases hpr : Http.http_parse_request c.requestBuf with
  | invalid =>
    have hpr' : Http.http_parse_request c'.requestBuf = .invalid := by
      rw [← hp]; exact hpr
    unfold Aio.process_http_request
    simp only [hpr, hpr']
    exact ⟨by trivial, aplan_prepare_error _ _ hplan 400⟩
  | incomplete =>
    have hpr' : Http.http_parse_request c'.requestBuf = .incomplete := by
      rw [← hp]; exact hpr
    unfold Aio.process_http_request
    simp only [hpr, hpr']
    exact ⟨by trivial, aplan_prepare_error _ _ hplan 400⟩
  | ok path =>
    have hpr' : Http.http_parse_request c'.requestBuf = .ok path := by
      rw [← hp]; exact hpr
    unfold Aio.process_http_request
    simp only [hpr, hpr']
    cases hj : Http.http_safe_join fs Aio.kPathBufferSize s.docRoot path with
    | none =>
      simp only [hj]
      exact ⟨by trivial, aplan_prepare_error _ _ hplan 404⟩
    | some fp =>
      simp only [hj]
      by_cases hst : ¬ (KQ.statRegular fs fp = true)
      · rw [if_pos hst, if_pos hst]
        exact ⟨by trivial, aplan_prepare_error _ _ hplan 404⟩
      · rw [if_neg hst, if_neg hst]
        exact ⟨by trivial, aplan_prepare_file fs c c' hplan fp⟩

/-- C9: in both event-driven variants, the complete request
`GET / HTTP/1.1\r\n\r\n` yields exactly the same response plan (staged
header/status bytes, opened file, offsets, sizes) and the same counter
updates as the explicit request `GET /index.html HTTP/1.1\r\n\r\n`, for
every filesystem and document root, because `http_parse_request` rewrites
the path `/` to `/index.html`. -/
theorem C9_root_equivalent_to_index (fs : Http.Fs) (s : KQ.KServer)
    (sa : Aio.AServer) (c : KQ.Conn) (a : Aio.AClient) :
    ((KQ.process_request fs s
        { c with requestBuf := "GET / HTTP/1.1\r\n\r\n".toList }).1 =
      (KQ.process_request fs s
        { c with requestBuf := "GET /index.html HTTP/1.1\r\n\r\n".toList }).1 ∧
     KQ.planConn (KQ.process_request fs s
        { c with requestBuf := "GET / HTTP/1.1\r\n\r\n".toList }).2 =
      KQ.planConn (KQ.process_request fs s
        { c with requestBuf := "GET /index.html HTTP/1.1\r\n\r\n".toList }).2) ∧
    ((Aio.process_http_request fs sa
        { a with requestBuf := "GET / HTTP/1.1\r\n\r\n".toList }).1 =
      (Aio.process_http_request fs sa
        { a with requestBuf := "GET /index.html HTTP/1.1\r\n\r\n".toList }).1 ∧
     aplan (Aio.process_http_request fs sa
        { a with requestBuf := "GET / HTTP/1.1\r\n\r\n".toList }).2 =
      aplan (Aio.process_http_request fs sa
        { a with requestBuf := "GET /index.html HTTP/1.1\r\n\r\n".toList }).2) := by
  constructor
  · apply process_request_congr
    · rfl
    · show Http.http_parse_request ("GET / HTTP/1.1\r\n\r\n".toList) =
        Http.http_parse_request ("GET /index.html HTTP/1.1\r\n\r\n".toList)
      decide
  · apply process_http_request_congr
    · rfl
    · show Http.http_parse_request ("GET / HTTP/1.1\r\n\r\n".toList) =
        Http.http_parse_request ("GET /index.html HTTP/1.1\r\n\r\n".toList)
      decide

lemma startsWith_append_self (xs ys : Str) : Http.startsWith xs (xs ++ ys) = true := by
  simp [Http.startsWith, List.isPrefixOf_iff_prefix]

/-- C1 counterexample: with document root `/a/b` and an existing regular file
`/a/b2/f`, the request path `/../b2/f` canonicalizes to `/a/b2/f`, which is
not confined to the root, yet `http_safe_join` succeeds (the containment
check is a raw string-prefix comparison) and the server stages a 200 file
response streaming the outside file instead of responding 404. -/
theorem C1_counterexample_sibling_directory_escape :
    Http.http_safe_join CE.fsSibling 1024 ("/a/b".toList) ("/../b2/f".toList) =
      some ("/a/b2/f".toList) ∧
    Http.confinedTo ("/a/b".toList) ("/a/b/../b2/f".toList) = false ∧
    (KQ.process_request CE.fsSibling CE.srvSibling
        (CE.freshConn ("GET /../b2/f HTTP/1.1\r\n\r\n".toList))).2.state =
      KQ.CState.sendingHeader ∧
    (KQ.process_request CE.fsSibling CE.srvSibling
        (CE.freshConn ("GET /../b2/f HTTP/1.1\r\n\r\n".toList))).2.fileFd =
      some ("/a/b2/f".toList) := by
  decide

/-- C1 amended: whenever `http_safe_join` succeeds, the returned path
extends the canonicalized root as a raw string prefix (this is the exact
containment guarantee the code's `strncmp` check provides — it rejects the
spec's `/../../etc/passwd` traversal with 404, but does not confine to the
root directory, as a sibling directory whose name extends the root's name
string passes it). -/
theorem C1_amended_string_prefix_confinement :
    (∀ (fs : Http.Fs) (outsz : Nat) (root rel out : Str),
      Http.http_safe_join fs outsz root rel = some out →
      Http.startsWith (Http.canonPath root) out = true) ∧
    Http.http_safe_join CE.fsPasswd 1024 ("/var/www".toList)
      ("/../../etc/passwd".toList) = none ∧
    (KQ.process_request CE.fsPasswd CE.srvPasswd
        (CE.freshConn ("GET /../../etc/passwd HTTP/1.1\r\n\r\n".toList))).2.responseBuf =
      (KQ.errorBytes 404).getD [] ∧
    (KQ.process_request CE.fsPasswd CE.srvPasswd
        (CE.freshConn ("GET /../../etc/passwd HTTP/1.1\r\n\r\n".toList))).2.fileFd =
      none := by
  refine ⟨?_, by decide, by decide, by decide⟩
  intro fs outsz root rel out h
  simp only [Http.http_safe_join] at h
  repeat' split at h
  all_goals first
    | (obtain rfl : _ = out := Option.some.inj h
       first
         | exact startsWith_append_self _ _
         | (rw [List.append_assoc]; exact startsWith_append_self _ _)
         | (simp only [not_not] at *; assumption))
    | simp at h

/-- Witness for C1: the string-prefix guarantee evaluated at the sibling
counterexample's inputs. -/
theorem C1_amended_string_prefix_confinement_witness :
    Http.startsWith (Http.canonPath ("/a/b".toList)) ("/a/b2/f".toList) = true :=
  C1_amended_string_prefix_confinement.1 CE.fsSibling 1024 ("/a/b".toList)
    ("/../b2/f".toList) ("/a/b2/f".toList) (by decide)

/-- C3 counterexample: serving `/index.html` (a 200 response) puts the
connection in `STATE_SENDING_HEADER` with the file descriptor already open,
refuting the claimed "open handle iff file-sending state" invariant. -/
theorem C3_counterexample_file_open_during_header :
    (KQ.process_request CE.fsIndex CE.srvIndex
        (CE.freshConn ("GET /index.html HTTP/1.1\r\n\r\n".toList))).2.state =
      KQ.CState.sendingHeader ∧
    (KQ.process_request CE.fsIndex CE.srvIndex
        (CE.freshConn ("GET /index.html HTTP/1.1\r\n\r\n".toList))).2.fileFd.isSome =
      true := by
  decide

lemma fileInv_prepare_error (c : KQ.Conn) (st : Nat) (h : fileInv c) :
    fileInv (KQ.prepare_error_response c st).1 := by
  unfold KQ.prepare_error_response
  split
  · exact h
  · split
    · exact h
    · simp [fileInv]

lemma fileInv_prepare_file (fs : Http.Fs) (c : KQ.Conn) (p : Str)
    (h : fileInv c) : fileInv (KQ.prepare_file_response fs c p).1 := by
  unfold KQ.prepare_file_response
  by_cases ho : ¬ (fs.openOk p = true)
  · rw [if_pos ho]; exact h
  · rw [if_neg ho]
    cases hB : Http.http_build_200 KQ.kHeaderBufferSize (fs.size p)
        (Http.http_guess_type p) with
    | none => simp only [hB]; exact h
    | some header => simp [hB, fileInv]

lemma fileInv_process_request (fs : Http.Fs) (s : KQ.KServer) (c : KQ.Conn)
    (h : fileInv c) : fileInv (KQ.process_request fs s c).2 := by
  cases hpr : Http.http_parse_request c.requestBuf with
  | invalid =>
    unfold KQ.process_request
    simp only [hpr]
    exact fileInv_prepare_error c 400 h
  | incomplete =>
    unfold KQ.process_request
    simp only [hpr]
    exact fileInv_prepare_error c 400 h
  | ok path =>
    unfold KQ.process_request
    simp only [hpr]
    cases hj : Http.http_safe_join fs KQ.kPathBufferSize s.docRoot path with
    | none =>
      simp only [hj]
      exact fileInv_prepare_error c 404 h
    | some fp =>
      simp only [hj]
      by_cases hst : ¬ (KQ.statRegular fs fp = true)
      · rw [if_pos hst]; exact fileInv_prepare_error c 404 h
      · rw [if_neg hst]
        by_cases hlt : (KQ.prepare_file_response fs c fp).2 < 0
        · rw [if_pos hlt]
          exact fileInv_prepare_error _ 500 (fileInv_prepare_file fs c fp h)
        · rw [if_neg hlt]
          exact fileInv_prepare_file fs c fp h

lemma fileInv_sendFilePhase (c : KQ.Conn) (sched : List KQ.SendRes)
    (h : fileInv c) : fileInv (KQ.sendFilePhase c sched).1 := by
  unfold KQ.sendFilePhase
  repeat' split
  all_goals first
    | exact h
    | simpa [fileInv] using h
    | (simp only [apply_ite Prod.fst, ite_self]
       first
         | exact h
         | simpa [fileInv] using h)
    | (simp only [fileInv, apply_ite KQ.Conn.fileFd, apply_ite KQ.Conn.state,
         apply_ite Prod.fst, ite_self]
       simpa [fileInv] using h)

lemma fileInv_send_response (c : KQ.Conn) (sched : List KQ.SendRes)
    (h : fileInv c) : fileInv (KQ.send_response c sched).1 := by
  simp only [KQ.send_response]
  by_cases hh : c.state = KQ.CState.sendingHeader
  · rw [if_pos hh]
    cases sched with
    | nil => exact h
    | cons ev rest =>
      cases ev with
      | wouldBlock => exact h
      | errClose => exact h
      | ok n =>
        simp only []
        split_ifs with hcomp
        · cases hfd : c.fileFd with
          | some p =>
            simp only [hfd]
            exact fileInv_sendFilePhase _ rest (by simp [fileInv, hfd])
          | none =>
            simp only [hfd]
            simp [fileInv, hh]
        · simpa [fileInv] using h
  · rw [if_neg hh]
    by_cases hf : c.state = KQ.CState.sendingFile ∧ c.fileFd.isSome
    · rw [if_pos hf]; exact fileInv_sendFilePhase c sched h
    · rw [if_neg hf]; exact h

lemma fileInv_buf_update (c : KQ.Conn) (b : Str) (h : fileInv c) :
    fileInv { c with requestBuf := b } := by
  exact ⟨fun hs => h.1 hs, fun hs => h.2 hs⟩

lemma fileInv_handle_read_event (fs : Http.Fs) (s : KQ.KServer) (c : KQ.Conn)
    (ev : KQ.RecvResult) (h : fileInv c) :
    fileInv (KQ.handle_read_event fs s c ev).2.1 := by
  unfold KQ.handle_read_event
  by_cases hs : ¬ (c.state = KQ.CState.readingRequest)
  · rw [if_pos hs]; exact h
  · rw [if_neg hs]
    cases ev with
    | wouldBlock => exact h
    | closed => exact h
    | errOther => exact h
    | data bytes =>
      simp only []
      split
      · exact fileInv_process_request fs s _ (fileInv_buf_update c _ h)
      · split
        · exact fileInv_prepare_error _ 413 (fileInv_buf_update c _ h)
        · exact fileInv_buf_update c _ h

lemma aioFileInv_prepare_error (c : Aio.AClient) (st : Nat)
    (h : c.fileFd.isSome → c.state = Aio.AState.sendingResponse) :
    (Aio.prepare_error_response c st).fileFd.isSome →
      (Aio.prepare_error_response c st).state = Aio.AState.sendingResponse := by
  simp only [Aio.prepare_error_response]
  by_cases hb : (Aio.aioErrorBytes st).length = 0 ∨
      (Aio.aioErrorBytes st).length ≥ Aio.kHeaderBufferSize
  · rw [if_pos hb]
    intro hs
    simp [Aio.close_client, Aio.reset_client] at hs
  · rw [if_neg hb]
    intro _
    rfl

lemma aioFileInv_prepare_file (fs : Http.Fs) (c : Aio.AClient) (p : Str)
    (h : c.fileFd.isSome → c.state = Aio.AState.sendingResponse) :
    (Aio.prepare_file_response fs c p).fileFd.isSome →
      (Aio.prepare_file_response fs c p).state = Aio.AState.sendingResponse := by
  unfold Aio.prepare_file_response
  by_cases ho : ¬ (fs.openOk p = true)
  · rw [if_pos ho]; exact aioFileInv_prepare_error c 500 h
  · rw [if_neg ho]
    cases hB : Http.http_build_200 Aio.kHeaderBufferSize (fs.size p)
        (Http.http_guess_type p) with
    | none => simp only [hB]; exact aioFileInv_prepare_error c 500 h
    | some header => simp [hB]

lemma aioFileInv_process (fs : Http.Fs) (s : Aio.AServer) (c : Aio.AClient)
    (h : c.fileFd.isSome → c.state = Aio.AState.sendingResponse) :
    (Aio.process_http_request fs s c).2.fileFd.isSome →
      (Aio.process_http_request fs s c).2.state = Aio.AState.sendingResponse := by
  cases hpr : Http.http_parse_request c.requestBuf with
  | invalid =>
    unfold Aio.process_http_request
    simp only [hpr]
    exact aioFileInv_prepare_error c 400 h
  | incomplete =>
    unfold Aio.process_http_request
    simp only [hpr]
    exact aioFileInv_prepare_error c 400 h
  | ok path =>
    unfold Aio.process_http_request
    simp only [hpr]
    cases hj : Http.http_safe_join fs Aio.kPathBufferSize s.docRoot path with
    | none =>
      simp only [hj]
      exact aioFileInv_prepare_error c 404 h
    | some fp =>
      simp only [hj]
      by_cases hst : ¬ (KQ.statRegular fs fp = true)
      · rw [if_pos hst]; exact aioFileInv_prepare_error c 404 h
      · rw [if_neg hst]; exact aioFileInv_prepare_file fs c fp h

/-- C3 amended: the invariant the code actually maintains is weaker than
claimed — an open file handle implies a *sending* state (header-sending or
file-sending), and the file-sending state always holds an open handle; during
header-sending of a 200 response the file is already open.  This invariant is
established by `reset_connection` and preserved by every kqueue handler, and
release closes the handle; the aio variant analogously keeps an open handle
only in its single sending state. -/
theorem C3_amended_handle_only_in_sending_states :
    (∀ c : KQ.Conn, fileInv (KQ.reset_connection c)) ∧
    (∀ (fs : Http.Fs) (s : KQ.KServer) (c : KQ.Conn) (ev : KQ.RecvResult),
      fileInv c → fileInv (KQ.handle_read_event fs s c ev).2.1) ∧
    (∀ (c : KQ.Conn) (sched : List KQ.SendRes),
      fileInv c → fileInv (KQ.send_response c sched).1) ∧
    (∀ (s : KQ.KServer) (c : KQ.Conn), (KQ.free_connection s c).2.fileFd = none) ∧
    (∀ (fs : Http.Fs) (s : Aio.AServer) (c : Aio.AClient) (ev : KQ.RecvResult),
      (c.fileFd.isSome → c.state = Aio.AState.sendingResponse) →
      ((Aio.handle_client_read fs s c ev).2.fileFd.isSome →
        (Aio.handle_client_read fs s c ev).2.state = Aio.AState.sendingResponse)) := by
  refine ⟨?_, ?_, ?_, ?_, ?_⟩
  · intro c; simp [KQ.reset_connection, fileInv]
  · exact fun fs s c ev h => fileInv_handle_read_event fs s c ev h
  · exact fun c sched h => fileInv_send_response c sched h
  · intro s c; rfl
  · intro fs s c ev h
    unfold Aio.handle_client_read
    cases ev with
    | wouldBlock => exact h
    | closed => intro hs; simp [Aio.close_client, Aio.reset_client] at hs
    | errOther => intro hs; simp [Aio.close_client, Aio.reset_client] at hs
    | data bytes =>
      simp only []
      split
      · exact aioFileInv_process fs s _ (fun hs => h hs)
      · exact fun hs => h hs

/-- Witness for C3: the preserved invariant evaluated after a read event on
a fresh connection. -/
theorem C3_amended_handle_only_in_sending_states_witness :
    fileInv (KQ.handle_read_event CE.fsIndex CE.srvIndex (CE.freshConn [])
      KQ.RecvResult.closed).2.1 :=
  C3_amended_handle_only_in_sending_states.2.1 CE.fsIndex CE.srvIndex
    (CE.freshConn []) KQ.RecvResult.closed
    (by constructor <;> intro hx <;> simp [CE.freshConn] at hx)

lemma strstr_cons_notMem (xs l : Str) (p0 : Char) (pt : Str)
    (hnm : p0 ∉ xs) (hl : Http.startsWith (p0 :: pt) l = true) :
    Http.strstr (xs ++ l) (p0 :: pt) = some xs.length := by
  induction xs with
  | nil =>
    cases l with
    | nil => simp [Http.startsWith, List.isPrefixOf] at hl
    | cons y ys => simp [Http.strstr, hl]
  | cons x xs ih =>
    have hp0x : (p0 == x) = false := by
      simp only [beq_eq_false_iff_ne, ne_eq]
      intro he; exact hnm (by simp [he])
    have hnm' : p0 ∉ xs := fun hm => hnm (List.mem_cons_of_mem x hm)
    simp [Http.strstr, Http.startsWith, List.isPrefixOf, hp0x, ih hnm']

lemma strchrFrom_append_left (xs l : Str) (c : Char) :
    Http.strchrFrom (xs ++ l) xs.length c =
      (Http.strchrFrom l 0 c).map (· + xs.length) := by
  induction xs with
  | nil => simp
  | cons x xs ih =>
    rw [show Http.strchrFrom ((x :: xs) ++ l) (x :: xs).length c
        = (Http.strchrFrom (xs ++ l) xs.length c).map (· + 1) from rfl]
    rw [ih]
    cases Http.strchrFrom l 0 c with
    | none => rfl
    | some v => rfl

lemma strchrFrom_first_hit (zs ws : Str) (c : Char) (h : c ∉ zs) :
    Http.strchrFrom (zs ++ c :: ws) 0 c = some zs.length := by
  induction zs with
  | nil => simp [Http.strchrFrom]
  | cons z zs ih =>
    have hzc : ¬ (z = c) := fun he => h (by simp [he])
    have h' : c ∉ zs := fun hm => h (List.mem_cons_of_mem z hm)
    simp [Http.strchrFrom, hzc, ih h']

lemma skipSpaces_of_ne (l : Str) (i fuel : Nat) (h : ¬ l.getD i ' ' = ' ') :
    Http.skipSpaces l i fuel = i := by
  cases fuel with
  | zero => rfl
  | succ f =>
    rw [show Http.skipSpaces l i (f + 1)
        = if l.getD i ' ' = ' ' ∧ i < l.length then Http.skipSpaces l (i + 1) f
          else i from rfl]
    rw [if_neg (fun hc => h hc.1)]

/-- Behaviour of `http_parse_request` on a well-formed single-header GET
request whose target path starts with `/` and contains no space or CR: the
path is extracted verbatim (with `/` rewritten to `/index.html`) when it fits
the 1024-byte path field, and the request is rejected as invalid when it is
1024 bytes or longer. -/
lemma parse_wfReq (p : Str) (hne : p ≠ []) (hhead : p.headD ' ' = '/')
    (hr : '\r' ∉ p) (hsp : ' ' ∉ p) :
    Http.http_parse_request (CE.wfReq p) =
      if p.length ≥ 1024 then .invalid
      else .ok (if p = "/".toList then "/index.html".toList else p) := by
  obtain ⟨pt, rfl⟩ : ∃ pt, p = '/' :: pt := by
    cases p with
    | nil => exact absurd rfl hne
    | cons a pt => exact ⟨pt, by rw [show a = '/' from by simpa using hhead]⟩
  have hrpt : '\r' ∉ pt := fun hm => hr (by simp [hm])
  have hbuf : CE.wfReq ('/' :: pt) =
      ('G' :: 'E' :: 'T' :: ' ' :: '/' :: (pt ++ (" HTTP/1.1".toList))) ++
        ("\r\n\r\n".toList) := by
    show 'G' :: 'E' :: 'T' :: ' ' :: '/' :: (pt ++ (" HTTP/1.1\r\n\r\n".toList)) = _
    rw [show (" HTTP/1.1\r\n\r\n".toList : Str)
        = " HTTP/1.1".toList ++ "\r\n\r\n".toList from by decide]
    simp [List.append_assoc]
  have hrx : '\r' ∉ ('G' :: 'E' :: 'T' :: ' ' :: '/' :: (pt ++ (" HTTP/1.1".toList))) := by
    simp only [List.mem_cons, List.mem_append, not_or]
    exact ⟨by decide, by decide, by decide, by decide, by decide, hrpt, by decide⟩
  have hstr : Http.strstr (CE.wfReq ('/' :: pt)) ("\r\n\r\n".toList) =
      some (14 + pt.length) := by
    rw [hbuf]
    rw [show ("\r\n\r\n".toList : Str) = '\r' :: "\n\r\n".toList from rfl]
    rw [strstr_cons_notMem _ _ _ _ hrx (by decide)]
    congr 1
    have h9 : (" HTTP/1.1".toList : Str).length = 9 := by decide
    simp [List.length_append, h9]
    omega
  have hlen : (CE.wfReq ('/' :: pt)).length = 18 + pt.length := by
    have h13 : (" HTTP/1.1\r\n\r\n".toList : Str).length = 13 := by decide
    show ('G' :: 'E' :: 'T' :: ' ' :: '/' ::
      (pt ++ (" HTTP/1.1\r\n\r\n".toList)) : Str).length = 18 + pt.length
    simp [List.length_append, h13]
    omega
  have hget4 : (CE.wfReq ('/' :: pt)).getD 4 ' ' = '/' := rfl
  have hgets : Http.startsWith ("GET ".toList) (CE.wfReq ('/' :: pt)) = true := rfl
  have hchr : Http.strchrFrom (CE.wfReq ('/' :: pt)) 4 ' ' =
      some (5 + pt.length) := by
    have hb2 : CE.wfReq ('/' :: pt) =
        ("GET ".toList : Str) ++
          (('/' :: pt) ++ (' ' :: "HTTP/1.1\r\n\r\n".toList)) := by
      show 'G' :: 'E' :: 'T' :: ' ' :: '/' :: (pt ++ (" HTTP/1.1\r\n\r\n".toList)) = _
      rfl
    have h4 : ("GET ".toList : Str).length = 4 := by decide
    rw [hb2, ← h4, strchrFrom_append_left,
      strchrFrom_first_hit ('/' :: pt) _ ' ' hsp, h4]
    show some (('/' :: pt : Str).length + 4) = some (5 + pt.length)
    rw [List.length_cons]
    congr 1
    omega
  unfold Http.http_parse_request
  rw [if_neg (by rw [hlen]; omega)]
  simp only [hstr]
  rw [if_neg (by
    simp only [hlen, hgets, not_or]
    exact ⟨by omega, by simp⟩)]
  rw [skipSpaces_of_ne _ _ _ (by rw [hget4]; decide)]
  rw [if_neg (by omega)]
  simp only [hchr]
  rw [if_neg (by omega)]
  have hplen : 5 + pt.length - 4 = pt.length + 1 := by omega
  by_cases hbig : ('/' :: pt : Str).length ≥ 1024
  · rw [if_pos (by
      right
      simp only [Http.pathCap, hplen]
      simpa using hbig)]
    rw [if_pos hbig]
  · rw [if_neg (by
      simp only [Http.pathCap, hplen, not_or]
      exact ⟨by omega, by simpa using hbig⟩)]
    rw [if_neg hbig]
    have hslice : ((CE.wfReq ('/' :: pt)).drop 4).take (5 + pt.length - 4) =
        '/' :: pt := by
      have hb3 : CE.wfReq ('/' :: pt) =
          ("GET ".toList : Str) ++ (('/' :: pt) ++ (" HTTP/1.1\r\n\r\n".toList)) := by
        show 'G' :: 'E' :: 'T' :: ' ' :: '/' :: (pt ++ (" HTTP/1.1\r\n\r\n".toList)) = _
        rfl
      rw [hb3, hplen]
      rw [show (4 : Nat) = ("GET ".toList : Str).length from by decide]
      rw [List.drop_left]
      rw [show (pt.length + 1 : Nat) = ('/' :: pt : Str).length from
        (List.length_cons _ _).symm]
      exact List.take_left _ _
    rw [hslice]

/-- C10 counterexample: a well-formed GET request whose target path is
exactly 1023 bytes long is parsed successfully (the fixed 1024-byte path
field holds 1023 characters plus the NUL terminator), refuting the claim
that paths of 1023 bytes or longer are rejected. -/
theorem C10_counterexample_1023_byte_path_accepted :
    CE.path1023.length = 1023 ∧
    Http.http_parse_request (CE.wfReq CE.path1023) =
      Http.ParseResult.ok CE.path1023 := by
  constructor
  · decide
  · rw [parse_wfReq CE.path1023 (by decide) (by decide) (by decide) (by decide)]
    rw [if_neg (by decide)]
    rw [if_neg (by decide)]

/-- C10 amended: the parser's bound is `path_len >= 1024`, so a well-formed
GET request is rejected as invalid — and the kqueue server answers 400 with
no counter update — exactly when its target path is 1024 bytes or longer
(1023-byte paths still parse). -/
theorem C10_amended_1024_byte_paths_rejected (fs : Http.Fs) (s : KQ.KServer)
    (c : KQ.Conn) (p : Str) (hne : p ≠ []) (hhead : p.headD ' ' = '/')
    (hr : '\r' ∉ p) (hsp : ' ' ∉ p) (hbig : 1024 ≤ p.length)
    (hbuf : c.requestBuf = CE.wfReq p) :
    Http.http_parse_request c.requestBuf = Http.ParseResult.invalid ∧
    (KQ.process_request fs s c).2.state = KQ.CState.sendingHeader ∧
    (KQ.process_request fs s c).2.responseBuf = (KQ.errorBytes 400).getD [] ∧
    (KQ.process_request fs s c).1 = s := by
  have hinv : Http.http_parse_request c.requestBuf = .invalid := by
    rw [hbuf, parse_wfReq p hne hhead hr hsp, if_pos hbig]
  have hE : KQ.errorBytes 400 = some (("HTTP/1.1 400 Bad Request\r\n"
      ++ "Content-Length: 11\r\nConnection: close\r\n\r\nBad Request").toList) := rfl
  have hlen400 : ¬ ((("HTTP/1.1 400 Bad Request\r\n"
      ++ "Content-Length: 11\r\nConnection: close\r\n\r\nBad Request").toList : Str).length = 0 ∨
      (("HTTP/1.1 400 Bad Request\r\n"
      ++ "Content-Length: 11\r\nConnection: close\r\n\r\nBad Request").toList : Str).length ≥
        KQ.kHeaderBufferSize) := by decide
  have herr : KQ.prepare_error_response c 400 =
      ({ c with
          responseBuf := ("HTTP/1.1 400 Bad Request\r\n"
              ++ "Content-Length: 11\r\nConnection: close\r\n\r\nBad Request").toList,
          responseSent := 0, state := .sendingHeader }, 0) := by
    unfold KQ.prepare_error_response
    simp only [hE]
    rw [if_neg hlen400]
  refine ⟨hinv, ?_, ?_, ?_⟩ <;>
    (rw [process_request_eq_invalid fs s c hinv, herr]; try rfl)

/-- Witness for C10: the 1024-byte path is rejected with a 400 plan. -/
theorem C10_amended_1024_byte_paths_rejected_witness :
    Http.http_parse_request
        (CE.freshConn (CE.wfReq CE.path1024)).requestBuf =
      Http.ParseResult.invalid ∧
    (KQ.process_request CE.fsIndex CE.srvIndex
        (CE.freshConn (CE.wfReq CE.path1024))).2.state =
      KQ.CState.sendingHeader ∧
    (KQ.process_request CE.fsIndex CE.srvIndex
        (CE.freshConn (CE.wfReq CE.path1024))).2.responseBuf =
      (KQ.errorBytes 400).getD [] ∧
    (KQ.process_request CE.fsIndex CE.srvIndex
        (CE.freshConn (CE.wfReq CE.path1024))).1 = CE.srvIndex :=
  C10_amended_1024_byte_paths_rejected CE.fsIndex CE.srvIndex
    (CE.freshConn (CE.wfReq CE.path1024)) CE.path1024 (by decide) (by decide)
    (by decide) (by decide) (by decide) rfl

lemma strstr_eq_none_of_head_notMem (l : Str) (p0 : Char) (pt : Str)
    (h : p0 ∉ l) : Http.strstr l (p0 :: pt) = none := by
  induction l with
  | nil => rfl
  | cons x xs ih =>
    have hp0x : (p0 == x) = false := by
      simp only [beq_eq_false_iff_ne, ne_eq]
      intro he; exact h (by simp [he])
    have h' : p0 ∉ xs := fun hm => h (List.mem_cons_of_mem x hm)
    simp [Http.strstr, Http.startsWith, List.isPrefixOf, hp0x, ih h']

/-- C2 counterexample: in the select-based variant there is no 413 path at
all — when the buffer is full (8191 bytes, capacity minus one) the next
`recv` is issued with length 0 and returns 0, which the handler treats as a
peer close: the connection is torn down with no response staged, and the
error builder maps 413 to its generic 500 default. -/
theorem C2_counterexample_select_variant_has_no_413 :
    CE.aioFullClient.requestBuf.length = Aio.kRequestBufferSize - 1 ∧
    (Aio.handle_client_read CE.fsIndex CE.aioSrv CE.aioFullClient
        KQ.RecvResult.closed).2 = Aio.close_client CE.aioFullClient ∧
    (Aio.close_client CE.aioFullClient).responseBuf = none ∧
    (Aio.close_client CE.aioFullClient).fd = -1 ∧
    Aio.aioErrorBytes 413 = Aio.aioErrorBytes 999 := by
  refine ⟨?_, rfl, rfl, rfl, by decide⟩
  show (List.replicate 8191 'a').length = Aio.kRequestBufferSize - 1
  rw [List.length_replicate]
  decide

/-- C2 amended: only the kqueue variant produces a 413. There, a read that
fills the buffer to capacity minus one without a terminator stages the 413
response and enters `STATE_SENDING_HEADER` with no file body, and draining
that response makes `send_response` return -1, closing the connection. The
select variant instead closes the connection with no response. -/
theorem C2_amended_413_only_in_kqueue_variant :
    (∀ (fs : Http.Fs) (s : KQ.KServer) (c : KQ.Conn) (bytes : Str),
      c.state = KQ.CState.readingRequest →
      (Http.strstr (c.requestBuf ++ bytes) ("\r\n\r\n".toList)).isSome = false →
      KQ.kRequestBufferSize - 1 ≤ (c.requestBuf ++ bytes).length →
      KQ.handle_read_event fs s c (KQ.RecvResult.data bytes) =
        (s, { c with requestBuf := c.requestBuf ++ bytes,
                     responseBuf := (KQ.errorBytes 413).getD [],
                     responseSent := 0,
                     state := KQ.CState.sendingHeader }, 0)) ∧
    (∀ (c : KQ.Conn) (n : Nat), c.state = KQ.CState.sendingHeader →
      c.fileFd = none → c.responseSent = 0 → 1 ≤ c.responseBuf.length →
      c.responseBuf.length ≤ n →
      (KQ.send_response c [KQ.SendRes.ok n]).2.1 = -1) ∧
    (∀ (fs : Http.Fs) (s : Aio.AServer) (c : Aio.AClient),
      (Aio.handle_client_read fs s c KQ.RecvResult.closed).2 =
        Aio.close_client c ∧
      (Aio.close_client c).responseBuf = none) := by
  refine ⟨?_, ?_, ?_⟩
  · intro fs s c bytes hstate hterm hcap
    unfold KQ.handle_read_event
    rw [if_neg (not_not_intro hstate)]
    simp only []
    rw [if_neg (by rw [hterm]; exact Bool.false_ne_true)]
    rw [if_pos (show (c.requestBuf ++ bytes).length ≥ KQ.kRequestBufferSize - 1 from hcap)]
    have hE : KQ.errorBytes 413 = some (("HTTP/1.1 413 Request Entity Too Large\r\n"
        ++ "Content-Length: 18\r\nConnection: close\r\n\r\nRequest Too Large").toList) := rfl
    have hlen413 : ¬ ((("HTTP/1.1 413 Request Entity Too Large\r\n"
        ++ "Content-Length: 18\r\nConnection: close\r\n\r\nRequest Too Large").toList : Str).length = 0 ∨
        (("HTTP/1.1 413 Request Entity Too Large\r\n"
        ++ "Content-Length: 18\r\nConnection: close\r\n\r\nRequest Too Large").toList : Str).length ≥
          KQ.kHeaderBufferSize) := by decide
    unfold KQ.prepare_error_response
    simp only [hE]
    rw [if_neg hlen413]
    rfl
  · intro c n hstate hfd hsent hpos hbig
    unfold KQ.send_response
    rw [if_pos hstate]
    simp only []
    have hmin : min n (c.responseBuf.length - c.responseSent) =
        c.responseBuf.length - c.responseSent := by
      omega
    rw [if_pos (by rw [hmin]; omega)]
    simp only [hfd]
  · intro fs s c
    exact ⟨rfl, rfl⟩

/-- Witness for C2: the kqueue 413 staging evaluated at a buffer one byte
below capacity. -/
theorem C2_amended_413_only_in_kqueue_variant_witness :
    KQ.handle_read_event CE.fsIndex CE.srvIndex CE.kqNearFullConn
        (KQ.RecvResult.data ['a']) =
      (CE.srvIndex, { CE.kqNearFullConn with
          requestBuf := CE.kqNearFullConn.requestBuf ++ ['a'],
          responseBuf := (KQ.errorBytes 413).getD [],
          responseSent := 0,
          state := KQ.CState.sendingHeader }, 0) := by
  have hterm : (Http.strstr (CE.kqNearFullConn.requestBuf ++ ['a'])
      ("\r\n\r\n".toList)).isSome = false := by
    rw [show CE.kqNearFullConn.requestBuf = List.replicate 4094 'a' from rfl]
    rw [show ("\r\n\r\n".toList : Str) = '\r' :: "\n\r\n".toList from rfl]
    rw [strstr_eq_none_of_head_notMem _ _ _ (by
      intro hm
      rcases List.mem_append.mp hm with h1 | h1
      · exact absurd (List.eq_of_mem_replicate h1) (by decide)
      · exact absurd (List.mem_singleton.mp h1) (by decide))]
    rfl
  have hcap : KQ.kRequestBufferSize - 1 ≤
      (CE.kqNearFullConn.requestBuf ++ ['a']).length := by
    rw [show CE.kqNearFullConn.requestBuf = List.replicate 4094 'a' from rfl]
    rw [List.length_append, List.length_replicate]
    decide
  exact C2_amended_413_only_in_kqueue_variant.1 CE.fsIndex CE.srvIndex
    CE.kqNearFullConn ['a'] rfl hterm hcap

/-- C8: whenever a `recv` or `send` reports a transport failure or an
orderly peer close, the handler immediately signals teardown (-1 in the
kqueue variant, direct `close_client` in the select variant) and the
connection state is left untouched — no response bytes are attempted
afterwards (the remaining socket schedule is returned unconsumed).  Covered
states: kqueue reading (the only state in which recv occurs), kqueue header
and file send phases, select-variant reading, and the select variant's two
send phases — header draining and file streaming (header buffer already
freed, file handle open, transfer incomplete). -/
theorem C8_transport_failure_immediate_teardown :
    (∀ (fs : Http.Fs) (s : KQ.KServer) (c : KQ.Conn),
      c.state = KQ.CState.readingRequest →
      KQ.handle_read_event fs s c KQ.RecvResult.closed = (s, c, -1) ∧
      KQ.handle_read_event fs s c KQ.RecvResult.errOther = (s, c, -1)) ∧
    (∀ (c : KQ.Conn) (rest : List KQ.SendRes),
      c.state = KQ.CState.sendingHeader →
      KQ.send_response c (KQ.SendRes.errClose :: rest) = (c, -1, 0, rest)) ∧
    (∀ (c : KQ.Conn) (rest : List KQ.SendRes),
      c.state = KQ.CState.sendingFile → c.fileFd.isSome →
      c.fileOffset < c.fileSize →
      KQ.send_response c (KQ.SendRes.errClose :: rest) = (c, -1, 0, rest)) ∧
    (∀ (fs : Http.Fs) (s : Aio.AServer) (c : Aio.AClient),
      Aio.handle_client_read fs s c KQ.RecvResult.closed =
        ({ s with numClients := s.numClients - 1 }, Aio.close_client c) ∧
      Aio.handle_client_read fs s c KQ.RecvResult.errOther =
        ({ s with numClients := s.numClients - 1 }, Aio.close_client c)) ∧
    (∀ (s : Aio.AServer) (c : Aio.AClient) (buf : Str) (rest : List KQ.SendRes),
      c.responseBuf = some buf →
      Aio.handle_client_write s c (KQ.SendRes.errClose :: rest) =
        ({ s with numClients := s.numClients - 1 }, Aio.close_client c, 0, rest)) ∧
    (∀ (s : Aio.AServer) (c : Aio.AClient) (p : Str) (rest : List KQ.SendRes),
      c.responseBuf = none → c.fileFd = some p → c.fileOffset < c.fileSize →
      Aio.handle_client_write s c (KQ.SendRes.errClose :: rest) =
        ({ s with numClients := s.numClients - 1 }, Aio.close_client c, 0, rest)) := by
  refine ⟨?_, ?_, ?_, ?_, ?_, ?_⟩
  · intro fs s c hstate
    unfold KQ.handle_read_event
    rw [if_neg (not_not_intro hstate)]
    exact ⟨rfl, rfl⟩
  · intro c rest hstate
    unfold KQ.send_response
    rw [if_pos hstate]
  · intro c rest hstate hfd hoff
    unfold KQ.send_response
    rw [if_neg (by rw [hstate]; decide)]
    rw [if_pos ⟨hstate, hfd⟩]
    unfold KQ.sendFilePhase
    rw [if_neg (by
      have h1 : 0 < KQ.kResponseBufferSize := by decide
      have h2 : 0 < c.fileSize - c.fileOffset := by omega
      omega)]
  · intro fs s c
    exact ⟨rfl, rfl⟩
  · intro s c buf rest hbuf
    unfold Aio.handle_client_write
    simp only [hbuf]
  · intro s c p rest hbuf hfd hoff
    unfold Aio.handle_client_write
    simp only [hbuf, hfd]
    rw [if_neg (by
      rw [show Aio.kResponseBufferSize = 65536 from rfl]
      omega)]

/-- Witness for C8: an error on send while the header is being sent closes
the connection at once. -/
theorem C8_transport_failure_immediate_teardown_witness :
    KQ.handle_read_event CE.fsIndex CE.srvIndex (CE.freshConn [])
        KQ.RecvResult.closed = (CE.srvIndex, CE.freshConn [], -1) :=
  (C8_transport_failure_immediate_teardown.1 CE.fsIndex CE.srvIndex
    (CE.freshConn []) (by decide)).1

lemma alloc_connection_none_iff (s : KQ.KServer) :
    KQ.alloc_connection s = none ↔ s.freeList = [] := by
  unfold KQ.alloc_connection
  cases hfl : s.freeList with
  | nil => simp
  | cons j tl => simp

lemma alloc_connection_some (s : KQ.KServer) (i : Nat) (s1 : KQ.KServer)
    (h : KQ.alloc_connection s = some (i, s1)) :
    s.freeList = i :: s1.freeList ∧ s1.numActive = s.numActive + 1 ∧
      s1.totalConnections = s.totalConnections + 1 ∧ s1.docRoot = s.docRoot ∧
      s1.totalRequests = s.totalRequests ∧
      s1.totalBytesSent = s.totalBytesSent := by
  unfold KQ.alloc_connection at h
  cases hfl : s.freeList with
  | nil => rw [hfl] at h; cases h
  | cons j tl =>
    rw [hfl] at h
    simp only [Option.some.injEq, Prod.mk.injEq] at h
    obtain ⟨rfl, rfl⟩ := h
    exact ⟨rfl, rfl, rfl, rfl, rfl, rfl⟩

lemma accept_connections_inv (s : KQ.KServer) (pending : List Int)
    (hinv : s.numActive + s.freeList.length = KQ.kMaxConnections) :
    (KQ.accept_connections s pending).1.numActive +
        (KQ.accept_connections s pending).1.freeList.length =
      KQ.kMaxConnections ∧
    (KQ.accept_connections s pending).2.length = pending.length := by
  induction pending generalizing s with
  | nil => exact ⟨hinv, rfl⟩
  | cons fd rest ih =>
    unfold KQ.accept_connections
    cases halloc : KQ.alloc_connection s with
    | none =>
      simp only [halloc]
      obtain ⟨h1, h2⟩ := ih s hinv
      exact ⟨h1, by simp [h2]⟩
    | some pair =>
      obtain ⟨i, s1⟩ := pair
      simp only [halloc]
      have hinv1 : s1.numActive + s1.freeList.length = KQ.kMaxConnections := by
        obtain ⟨hfl, hact, -⟩ := alloc_connection_some s i s1 halloc
        have : s.freeList.length = s1.freeList.length + 1 := by
          rw [hfl]; rfl
        omega
      obtain ⟨h1, h2⟩ := ih s1 hinv1
      exact ⟨h1, by simp [h2]⟩

/-- C5: the pool caps concurrency — from any state satisfying the pool
invariant, draining any accept queue preserves it (so active never exceeds
capacity) and handles every pending socket; with the pool exhausted every
pending socket is refused and closed at once with nothing else done, in both
variants. -/
theorem C5_pool_exhaustion_refuses_and_listening_continues :
    (∀ (s : KQ.KServer) (pending : List Int),
      s.numActive + s.freeList.length = KQ.kMaxConnections →
      (KQ.accept_connections s pending).1.numActive +
          (KQ.accept_connections s pending).1.freeList.length =
        KQ.kMaxConnections ∧
      (KQ.accept_connections s pending).1.numActive ≤ KQ.kMaxConnections ∧
      (KQ.accept_connections s pending).2.length = pending.length) ∧
    (∀ (s : KQ.KServer) (pending : List Int), s.freeList = [] →
      KQ.accept_connections s pending =
        (s, pending.map KQ.AcceptOutcome.refused)) ∧
    (∀ (s : Aio.AServer) (clients : List Aio.AClient) (pending : List Int),
      (Aio.accept_new_clients s clients pending).2.1.length = clients.length ∧
      Aio.activeCount (Aio.accept_new_clients s clients pending).2.1 ≤
        clients.length) ∧
    (∀ (s : Aio.AServer) (clients : List Aio.AClient) (pending : List Int),
      Aio.findFreeIdx clients = none →
      Aio.accept_new_clients s clients pending =
        (s, clients, pending.map KQ.AcceptOutcome.refused)) := by
  refine ⟨?_, ?_, ?_, ?_⟩
  · intro s pending hinv
    obtain ⟨h1, h2⟩ := accept_connections_inv s pending hinv
    exact ⟨h1, by omega, h2⟩
  · intro s pending hempty
    induction pending with
    | nil => rfl
    | cons fd rest ih =>
      unfold KQ.accept_connections
      have halloc : KQ.alloc_connection s = none :=
        (alloc_connection_none_iff s).mpr hempty
      simp only [halloc, ih]
      rfl
  · intro s clients pending
    induction pending generalizing s clients with
    | nil => exact ⟨rfl, List.length_filter_le _ _⟩
    | cons fd rest ih =>
      unfold Aio.accept_new_clients
      cases hfree : Aio.findFreeIdx clients with
      | none =>
        simp only [hfree]
        obtain ⟨h1, h2⟩ := ih s clients
        exact ⟨h1, h2⟩
      | some i =>
        simp only [hfree]
        obtain ⟨h1, h2⟩ := ih { s with numClients := s.numClients + 1 }
          (clients.set i (Aio.acceptInit (clients.getD i (Aio.reset_client default)) fd))
        constructor
        · rw [h1]
          exact List.length_set ..
        · calc Aio.activeCount _ ≤ (clients.set i _).length := h2
            _ = clients.length := List.length_set ..
  · intro s clients pending hfree
    induction pending with
    | nil => rfl
    | cons fd rest ih =>
      unfold Aio.accept_new_clients
      simp only [hfree, ih]
      rfl

/-- Witness for C5: with the pool exhausted, two pending sockets are both
refused and the server is unchanged. -/
theorem C5_pool_exhaustion_witness :
    KQ.accept_connections CE.emptyPoolSrv [5, 6] =
      (CE.emptyPoolSrv, List.map KQ.AcceptOutcome.refused [5, 6]) :=
  C5_pool_exhaustion_refuses_and_listening_continues.2.1 CE.emptyPoolSrv
    [5, 6] rfl

/-- C6: pool-accounting invariant — `allocate` pops the free-list head and
`release` pushes the slot back, so active-count plus free-list length stays
exactly at capacity; allocation fails exactly when the free list is empty;
release only closes descriptors (never touching buffers), and the reset
performed before reuse clears only logical counters, preserving the
lazily-allocated buffer and the slot identity. -/
theorem C6_pool_sum_invariant_and_record_reuse :
    (∀ (s : KQ.KServer) (i : Nat) (s1 : KQ.KServer),
      KQ.alloc_connection s = some (i, s1) →
      s.numActive + s.freeList.length = KQ.kMaxConnections →
      s1.numActive + s1.freeList.length = KQ.kMaxConnections) ∧
    (∀ s : KQ.KServer, KQ.alloc_connection s = none ↔ s.freeList = []) ∧
    (∀ (s : KQ.KServer) (c : KQ.Conn),
      1 ≤ s.numActive → s.numActive + s.freeList.length = KQ.kMaxConnections →
      (KQ.free_connection s c).1.numActive +
        (KQ.free_connection s c).1.freeList.length = KQ.kMaxConnections) ∧
    (∀ (s : KQ.KServer) (c : KQ.Conn),
      (KQ.free_connection s c).1.freeList = c.slot :: s.freeList ∧
      (KQ.free_connection s c).2 = { c with fd := -1, fileFd := none }) ∧
    (∀ c : KQ.Conn,
      KQ.reset_connection c = { c with
          state := KQ.CState.readingRequest, requestBuf := [],
          responseBuf := [], responseSent := 0, fileFd := none,
          fileOffset := 0, fileSize := 0 } ∧
      (KQ.reset_connection c).requestAllocated = c.requestAllocated ∧
      (KQ.reset_connection c).slot = c.slot) := by
  refine ⟨?_, alloc_connection_none_iff, ?_, ?_, ?_⟩
  · intro s i s1 h hinv
    obtain ⟨hfl, hact, -⟩ := alloc_connection_some s i s1 h
    have : s.freeList.length = s1.freeList.length + 1 := by rw [hfl]; rfl
    omega
  · intro s c hact hinv
    unfold KQ.free_connection
    simp only [List.length_cons]
    omega
  · intro s c
    exact ⟨rfl, rfl⟩
  · intro c
    exact ⟨rfl, rfl, rfl⟩

/-- Witness for C6: releasing the single active connection restores the
pool-sum invariant at full capacity. -/
theorem C6_pool_sum_invariant_witness :
    (KQ.free_connection CE.nearFullPoolSrv (CE.freshConn [])).1.numActive +
      (KQ.free_connection CE.nearFullPoolSrv (CE.freshConn [])).1.freeList.length =
    KQ.kMaxConnections :=
  C6_pool_sum_invariant_and_record_reuse.2.2.1 CE.nearFullPoolSrv
    (CE.freshConn []) (by decide)
    (by
      rw [show CE.nearFullPoolSrv.freeList = List.replicate 49999 0 from rfl]
      rw [List.length_replicate]
      decide)

lemma prepare_error_fileFd (c : KQ.Conn) (st : Nat) :
    (KQ.prepare_error_response c st).1.fileFd = c.fileFd := by
  unfold KQ.prepare_error_response
  split
  · rfl
  · split
    · rfl
    · rfl

lemma prepare_error_totalRequests_free (c : KQ.Conn) (st : Nat) :
    (KQ.prepare_error_response c st).2 = (KQ.prepare_error_response c st).2 := rfl

lemma prepare_file_fail_conn (fs : Http.Fs) (c : KQ.Conn) (p : Str)
    (h : (KQ.prepare_file_response fs c p).2 < 0) :
    (KQ.prepare_file_response fs c p).1 = c := by
  unfold KQ.prepare_file_response at h ⊢
  by_cases ho : ¬ (fs.openOk p = true)
  · rw [if_pos ho]
  · rw [if_neg ho] at h ⊢
    cases hB : Http.http_build_200 KQ.kHeaderBufferSize (fs.size p)
        (Http.http_guess_type p) with
    | none => simp only [hB]
    | some header => simp only [hB] at h; omega

lemma prepare_file_succ_fileFd (fs : Http.Fs) (c : KQ.Conn) (p : Str)
    (h : ¬ (KQ.prepare_file_response fs c p).2 < 0) :
    (KQ.prepare_file_response fs c p).1.fileFd = some p := by
  unfold KQ.prepare_file_response at h ⊢
  by_cases ho : ¬ (fs.openOk p = true)
  · rw [if_pos ho] at h; omega
  · rw [if_neg ho] at h ⊢
    cases hB : Http.http_build_200 KQ.kHeaderBufferSize (fs.size p)
        (Http.http_guess_type p) with
    | none => simp only [hB] at h; omega
    | some header => simp only [hB]

lemma process_request_conn_docRoot (fs : Http.Fs) (s s' : KQ.KServer)
    (c : KQ.Conn) (hdoc : s.docRoot = s'.docRoot) :
    (KQ.process_request fs s c).2 = (KQ.process_request fs s' c).2 := by
  unfold KQ.process_request
  cases hpr : Http.http_parse_request c.requestBuf with
  | invalid => rfl
  | incomplete => rfl
  | ok path =>
    rw [hdoc]
    cases hj : Http.http_safe_join fs KQ.kPathBufferSize s'.docRoot path with
    | none => simp only [hj]
    | some fp =>
      simp only [hj]
      split
      · rfl
      · split
        · rfl
        · rfl

lemma aio_process_server (fs : Http.Fs) (s : Aio.AServer) (c : Aio.AClient) :
    (Aio.process_http_request fs s c).1 = s := by
  unfold Aio.process_http_request
  cases hpr : Http.http_parse_request c.requestBuf with
  | invalid => rfl
  | incomplete => rfl
  | ok path =>
    cases hj : Http.http_safe_join fs Aio.kPathBufferSize s.docRoot path with
    | none => simp only [hj]
    | some fp =>
      simp only [hj]
      split
      · rfl
      · rfl

/-- C4 counterexample: in the kqueue variant a completed request answered
with an error response does not increment the request counter (only 200 file
responses do), and the write path never adds the bytes actually sent to the
bytes counter — the increment is commented out — even when the socket
accepts bytes. -/
theorem C4_counterexample_kqueue_counters_not_updated :
    (KQ.process_request CE.fsIndex CE.srvIndex
        (CE.freshConn ("XYZ\r\n\r\n".toList))).1.totalRequests =
      CE.srvIndex.totalRequests ∧
    (KQ.process_request CE.fsIndex CE.srvIndex
        (CE.freshConn ("XYZ\r\n\r\n".toList))).2.responseBuf =
      (KQ.errorBytes 400).getD [] ∧
    (KQ.handle_write_event CE.srvIndex CE.sendingConn [KQ.SendRes.ok 5]).2.2.2.1 =
      5 ∧
    (KQ.handle_write_event CE.srvIndex CE.sendingConn [KQ.SendRes.ok 5]).1 =
      CE.srvIndex := by
  decide

/-- C4 amended: statistics are maintained asymmetrically. Kqueue variant:
every pooled accept increments the connection counter, but the request
counter is incremented only for successful 200 file responses (error
responses are not counted) and the bytes-sent counter is never incremented
(the increment is commented out — the write path leaves the server context
untouched). Select variant: every completed request increments the request
counter (errors included) and every successful send adds the accepted bytes;
it has no cumulative connection counter. Counters are never read back for
control: handler behaviour is independent of the counter values. -/
theorem C4_amended_counter_accounting :
    (∀ (s : KQ.KServer) (i : Nat) (s1 : KQ.KServer),
      KQ.alloc_connection s = some (i, s1) →
      s1.totalConnections = s.totalConnections + 1) ∧
    (∀ (fs : Http.Fs) (s : KQ.KServer) (c : KQ.Conn), c.fileFd = none →
      (KQ.process_request fs s c).1.totalRequests =
        s.totalRequests +
          (if (KQ.process_request fs s c).2.fileFd.isSome then 1 else 0)) ∧
    (∀ (s : KQ.KServer) (c : KQ.Conn) (sched : List KQ.SendRes),
      (KQ.handle_write_event s c sched).1 = s) ∧
    (∀ (fs : Http.Fs) (s : Aio.AServer) (c : Aio.AClient) (bytes : Str),
      (Http.strstr (c.requestBuf ++ bytes) ("\r\n\r\n".toList)).isSome = true →
      (Aio.handle_client_read fs s c
          (KQ.RecvResult.data bytes)).1.totalRequests = s.totalRequests + 1) ∧
    (∀ (s : Aio.AServer) (c : Aio.AClient) (sched : List KQ.SendRes),
      (Aio.handle_client_write s c sched).1.totalBytesSent =
        s.totalBytesSent + (Aio.handle_client_write s c sched).2.2.1) ∧
    (∀ (fs : Http.Fs) (s s' : KQ.KServer) (c : KQ.Conn) (ev : KQ.RecvResult),
      s.docRoot = s'.docRoot →
      (KQ.handle_read_event fs s c ev).2 = (KQ.handle_read_event fs s' c ev).2) := by
  refine ⟨?_, ?_, ?_, ?_, ?_, ?_⟩
  · intro s i s1 h
    exact (alloc_connection_some s i s1 h).2.2.1
  · intro fs s c hfd
    cases hpr : Http.http_parse_request c.requestBuf with
    | invalid =>
      rw [process_request_eq_invalid fs s c hpr]
      simp [prepare_error_fileFd, hfd]
    | incomplete =>
      unfold KQ.process_request
      simp only [hpr]
      simp [prepare_error_fileFd, hfd]
    | ok path =>
      rw [process_request_eq_ok fs s c path hpr]
      cases hj : Http.http_safe_join fs KQ.kPathBufferSize s.docRoot path with
      | none => simp [prepare_error_fileFd, hfd]
      | some fp =>
        simp only [hj]
        by_cases hst : ¬ KQ.statRegular fs fp = true
        · simp only [if_pos hst]
          simp [prepare_error_fileFd, hfd]
        · simp only [if_neg hst]
          by_cases hlt : (KQ.prepare_file_response fs c fp).2 < 0
          · simp only [if_pos hlt]
            simp [prepare_error_fileFd, prepare_file_fail_conn fs c fp hlt, hfd]
          · simp only [if_neg hlt]
            simp [prepare_file_succ_fileFd fs c fp hlt]
  · intro s c sched
    unfold KQ.handle_write_event
    split
    · rfl
    · rfl
  · intro fs s c bytes hterm
    unfold Aio.handle_client_read
    simp only []
    rw [if_pos hterm]
    have hs := aio_process_server fs s
      { c with requestBuf := c.requestBuf ++ bytes }
    simp only []
    rw [hs]
  · intro s c sched
    unfold Aio.handle_client_write
    cases hrb : c.responseBuf with
    | some buf =>
      simp only []
      cases sched with
      | nil => simp
      | cons ev rest =>
        cases ev with
        | wouldBlock => simp
        | errClose => simp
        | ok n =>
          simp only []
          split
          · split
            · simp
            · simp
          · simp
    | none =>
      simp only []
      cases hfd : c.fileFd with
      | none => simp
      | some p =>
        simp only []
        split
        · simp
        · cases sched with
          | nil => simp
          | cons ev rest =>
            cases ev with
            | wouldBlock => simp
            | errClose => simp
            | ok n =>
              simp only []
              split
              · simp
              · simp
  · intro fs s s' c ev hdoc
    unfold KQ.handle_read_event
    split
    · rfl
    · cases ev with
      | wouldBlock => rfl
      | closed => rfl
      | errOther => rfl
      | data bytes =>
        simp only []
        split
        · have := process_request_conn_docRoot fs s s'
            { c with requestBuf := c.requestBuf ++ bytes } hdoc
          simp only [this]
        · split
          · rfl
          · rfl

/-- Witness for C4: a parsed request that resolves to no file is not
counted in the kqueue variant. -/
theorem C4_amended_counter_accounting_witness :
    (KQ.process_request CE.fsIndex CE.srvIndex
        (CE.freshConn ("XYZ\r\n\r\n".toList))).1.totalRequests =
      CE.srvIndex.totalRequests +
        (if (KQ.process_request CE.fsIndex CE.srvIndex
            (CE.freshConn ("XYZ\r\n\r\n".toList))).2.fileFd.isSome then 1
         else 0) :=
  C4_amended_counter_accounting.2.1 CE.fsIndex CE.srvIndex
    (CE.freshConn ("XYZ\r\n\r\n".toList)) rfl

lemma noErr_tail {ev : KQ.SendRes} {rest : List KQ.SendRes}
    (h : noErr (ev :: rest)) : noErr rest :=
  fun hm => h (List.mem_cons_of_mem _ hm)

lemma noErr_nil : noErr ([] : List KQ.SendRes) :=
  List.not_mem_nil _

lemma noErr_head_false {rest : List KQ.SendRes}
    (h : noErr (KQ.SendRes.errClose :: rest)) : False :=
  h (List.mem_cons_self _ _)

lemma progress_of_file (c : KQ.Conn) (hst : c.state = KQ.CState.sendingFile) :
    KQ.progress c = c.responseBuf.length + c.fileOffset := by
  simp [KQ.progress, hst]

lemma progress_of_header_state (c : KQ.Conn)
    (hst : c.state = KQ.CState.sendingHeader) :
    KQ.progress c = c.responseSent := by
  simp [KQ.progress, hst]

lemma progress_update_offset (c : KQ.Conn) (x : Nat)
    (hst : c.state = KQ.CState.sendingFile) :
    KQ.progress { c with fileOffset := x } = c.responseBuf.length + x := by
  simp [KQ.progress, hst]

lemma progress_update_sent (c : KQ.Conn) (x : Nat)
    (hst : c.state = KQ.CState.sendingHeader) :
    KQ.progress { c with responseSent := x } = x := by
  simp [KQ.progress, hst]

lemma sendFilePhase_step (c : KQ.Conn) (sched : List KQ.SendRes)
    (hst : c.state = KQ.CState.sendingFile) (hoff : c.fileOffset ≤ c.fileSize)
    (hfd : c.fileFd.isSome = true) (hne : noErr sched) :
    kqStep c (KQ.sendFilePhase c sched) := by
  have hK : KQ.kResponseBufferSize = 32768 := rfl
  simp only [KQ.sendFilePhase]
  by_cases h0 : min KQ.kResponseBufferSize (c.fileSize - c.fileOffset) = 0
  · rw [if_pos h0]
    rw [hK] at h0
    refine ⟨rfl, rfl, by simp, ?_, ?_, hne⟩
    · intro _
      rw [progress_of_file c hst]
      omega
    · intro hr
      exact absurd rfl hr
  · rw [if_neg h0]
    cases sched with
    | nil =>
      refine ⟨rfl, rfl, by simp, ?_, ?_, noErr_nil⟩
      · intro hr; exact absurd (show (0 : Int) = -1 from hr) (by decide)
      · intro _; exact Or.inr ⟨hst, hoff, hfd⟩
    | cons ev rest =>
      have hner : noErr rest := noErr_tail hne
      cases ev with
      | wouldBlock =>
        refine ⟨rfl, rfl, by simp, ?_, ?_, hner⟩
        · intro hr; exact absurd (show (0 : Int) = -1 from hr) (by decide)
        · intro _; exact Or.inr ⟨hst, hoff, hfd⟩
      | errClose => exact (noErr_head_false hne).elim
      | ok n =>
        simp only []
        have hb : min n (min KQ.kResponseBufferSize
            (c.fileSize - c.fileOffset)) ≤ c.fileSize - c.fileOffset :=
          le_trans (Nat.min_le_right _ _) (Nat.min_le_right _ _)
        by_cases hge : c.fileOffset + min n (min KQ.kResponseBufferSize
            (c.fileSize - c.fileOffset)) ≥ c.fileSize
        · rw [if_pos hge]
          refine ⟨rfl, rfl, ?_, ?_, ?_, hner⟩
          · show KQ.progress { c with fileOffset := (c.fileOffset +
                min n (min KQ.kResponseBufferSize
                  (c.fileSize - c.fileOffset))) } =
              KQ.progress c + min n (min KQ.kResponseBufferSize
                (c.fileSize - c.fileOffset))
            rw [progress_update_offset c _ hst, progress_of_file c hst]
            omega
          · intro _
            show KQ.progress { c with fileOffset := (c.fileOffset +
                min n (min KQ.kResponseBufferSize
                  (c.fileSize - c.fileOffset))) } =
              c.responseBuf.length + c.fileSize
            rw [progress_update_offset c _ hst]
            omega
          · intro hr; exact absurd rfl hr
        · rw [if_neg hge]
          refine ⟨rfl, rfl, ?_, ?_, ?_, hner⟩
          · show KQ.progress { c with fileOffset := (c.fileOffset +
                min n (min KQ.kResponseBufferSize
                  (c.fileSize - c.fileOffset))) } =
              KQ.progress c + min n (min KQ.kResponseBufferSize
                (c.fileSize - c.fileOffset))
            rw [progress_update_offset c _ hst, progress_of_file c hst]
            omega
          · intro hr; exact absurd (show (0 : Int) = -1 from hr) (by decide)
          · intro _
            refine Or.inr ⟨hst, ?_, hfd⟩
            show c.fileOffset + min n (min KQ.kResponseBufferSize
              (c.fileSize - c.fileOffset)) ≤ c.fileSize
            omega

lemma send_response_step (c : KQ.Conn) (sched : List KQ.SendRes)
    (hInv : sendInv c) (hne : noErr sched) :
    kqStep c (KQ.send_response c sched) := by
  rcases hInv with ⟨hst, hlt, hoff0, hfd⟩ | ⟨hst, hoff, hfd⟩
  · simp only [KQ.send_response]
    rw [if_pos hst]
    cases sched with
    | nil =>
      refine ⟨rfl, rfl, by simp, ?_, ?_, noErr_nil⟩
      · intro hr; exact absurd (show (0 : Int) = -1 from hr) (by decide)
      · intro _; exact Or.inl ⟨hst, hlt, hoff0, hfd⟩
    | cons ev rest =>
      have hner : noErr rest := noErr_tail hne
      cases ev with
      | wouldBlock =>
        refine ⟨rfl, rfl, by simp, ?_, ?_, hner⟩
        · intro hr; exact absurd (show (0 : Int) = -1 from hr) (by decide)
        · intro _; exact Or.inl ⟨hst, hlt, hoff0, hfd⟩
      | errClose => exact (noErr_head_false hne).elim
      | ok n =>
        simp only []
        have hb : min n (c.responseBuf.length - c.responseSent) ≤
            c.responseBuf.length - c.responseSent := Nat.min_le_right _ _
        by_cases hge : c.responseSent + min n (c.responseBuf.length -
            c.responseSent) ≥ c.responseBuf.length
        · rw [if_pos hge]
          obtain ⟨p, hp⟩ := Option.isSome_iff_exists.mp hfd
          simp only [hp]
          have hstep := sendFilePhase_step { c with state := KQ.CState.sendingFile, responseSent := 0, fileFd := some p } rest rfl (by show c.fileOffset ≤ c.fileSize; omega) rfl hner
          obtain ⟨sb, sf, sp, sd, si, sn⟩ := hstep
          have hpd : KQ.progress { c with state := KQ.CState.sendingFile, responseSent := 0, fileFd := some p } = c.responseBuf.length := by
            simp [KQ.progress, hoff0]
          refine ⟨?_, ?_, ?_, ?_, ?_, ?_⟩
          · exact sb
          · exact sf
          · have key : KQ.progress (KQ.sendFilePhase { c with state := KQ.CState.sendingFile, responseSent := 0, fileFd := some p } rest).1 = KQ.progress c + (min n (c.responseBuf.length - c.responseSent) + (KQ.sendFilePhase { c with state := KQ.CState.sendingFile, responseSent := 0, fileFd := some p } rest).2.2.1) := by
              rw [sp, hpd, progress_of_header_state c hst]
              omega
            exact key
          · have key : (KQ.sendFilePhase { c with state := KQ.CState.sendingFile, responseSent := 0, fileFd := some p } rest).2.1 = -1 → KQ.progress (KQ.sendFilePhase { c with state := KQ.CState.sendingFile, responseSent := 0, fileFd := some p } rest).1 = c.responseBuf.length + c.fileSize := fun hr => sd hr
            exact key
          · exact si
          · exact sn
        · rw [if_neg hge]
          refine ⟨rfl, rfl, ?_, ?_, ?_, hner⟩
          · show KQ.progress { c with responseSent := (c.responseSent +
                min n (c.responseBuf.length - c.responseSent)) } =
              KQ.progress c + min n (c.responseBuf.length - c.responseSent)
            rw [progress_update_sent c _ hst, progress_of_header_state c hst]
          · intro hr; exact absurd (show (0 : Int) = -1 from hr) (by decide)
          · intro _
            refine Or.inl ⟨hst, ?_, hoff0, hfd⟩
            show c.responseSent + min n (c.responseBuf.length -
              c.responseSent) < c.responseBuf.length
            omega
  · simp only [KQ.send_response]
    have hns : ¬ (c.state = KQ.CState.sendingHeader) := by
      intro h
      rw [hst] at h
      exact absurd h (by decide)
    rw [if_neg hns, if_pos (And.intro hst hfd)]
    exact sendFilePhase_step c sched hst hoff hfd hne

lemma runWrites_total (fuel : Nat) :
    ∀ (c : KQ.Conn) (sched : List KQ.SendRes) (c' : KQ.Conn) (total : Nat),
      sendInv c → noErr sched →
      KQ.runWrites fuel c sched = (c', true, total) →
      KQ.progress c + total = c.responseBuf.length + c.fileSize := by
  induction fuel with
  | zero =>
    intro c sched c' total _ _ h
    unfold KQ.runWrites at h
    simp only [Prod.mk.injEq] at h
    exact absurd h.2.1 (by decide)
  | succ fuel ih =>
    intro c sched c' total hInv hne h
    obtain ⟨sb, sf, sp, sd, si, sn⟩ := send_response_step c sched hInv hne
    unfold KQ.runWrites at h
    rcases hE : KQ.send_response c sched with ⟨c1, r, acc, rest⟩
    rw [hE] at h
    simp only [] at h
    have sb' : c1.responseBuf = c.responseBuf := by rw [hE] at sb; exact sb
    have sf' : c1.fileSize = c.fileSize := by rw [hE] at sf; exact sf
    have sp' : KQ.progress c1 = KQ.progress c + acc := by
      rw [hE] at sp; exact sp
    have sd' : r = -1 → KQ.progress c1 =
        c.responseBuf.length + c.fileSize := by rw [hE] at sd; exact sd
    have si' : r ≠ -1 → sendInv c1 := by rw [hE] at si; exact si
    have sn' : noErr rest := by rw [hE] at sn; exact sn
    by_cases hr : r = -1
    · rw [if_pos hr] at h
      have htot : acc = total := congrArg (fun t => t.2.2) h
      rw [← htot, ← sp']
      exact sd' hr
    · rw [if_neg hr] at h
      rcases hR : KQ.runWrites fuel c1 rest with ⟨c2, done2, tot2⟩
      rw [hR] at h
      simp only [] at h
      have hdone : done2 = true := congrArg (fun t => t.2.1) h
      have htot : acc + tot2 = total := congrArg (fun t => t.2.2) h
      have hrec := ih c1 rest c2 tot2 (si' hr) sn' (by rw [hR, hdone])
      rw [sb', sf', sp'] at hrec
      omega

lemma aStep_id (H : Nat) (s : Aio.AServer) (c : Aio.AClient)
    (rest : List KQ.SendRes) (hInv : ainv H c) (hner : noErr rest) :
    aStep H c (s, c, 0, rest) := by
  refine ⟨?_, ?_, hner⟩
  · intro hlt0
    have hc : c.fd < 0 := hlt0
    have hc0 : 0 ≤ c.fd := hInv.1
    omega
  · intro _
    refine ⟨hInv, rfl, ?_⟩
    show Aio.aprogress H c = Aio.aprogress H c + 0
    omega

lemma handle_client_write_step (H : Nat) (s : Aio.AServer) (c : Aio.AClient)
    (sched : List KQ.SendRes) (hInv : ainv H c) (hne : noErr sched) :
    aStep H c (Aio.handle_client_write s c sched) := by
  have hfd0 : 0 ≤ c.fd := hInv.1
  have hfs : c.fileFd.isSome = true := hInv.2.1
  have hKA : Aio.kResponseBufferSize = 65536 := rfl
  rcases hInv.2.2 with ⟨buf, hrb, hlen, hlt, hoff0⟩ | ⟨hrb, hoff⟩
  · simp only [Aio.handle_client_write, hrb]
    cases sched with
    | nil => exact aStep_id H s c [] hInv noErr_nil
    | cons ev rest =>
      have hner : noErr rest := noErr_tail hne
      cases ev with
      | wouldBlock => exact aStep_id H s c rest hInv hner
      | errClose => exact (noErr_head_false hne).elim
      | ok n =>
        simp only []
        have hb : min n (buf.length - c.responseSent) ≤
            buf.length - c.responseSent := Nat.min_le_right _ _
        by_cases hge : c.responseSent + min n (buf.length - c.responseSent) ≥
            buf.length
        · rw [if_pos hge]
          rw [if_pos hfs]
          refine ⟨?_, ?_, hner⟩
          · intro hlt0
            have hc : c.fd < 0 := hlt0
            omega
          · intro _
            refine ⟨⟨hfd0, hfs, Or.inr ⟨rfl, ?_⟩⟩, rfl, ?_⟩
            · show c.fileOffset ≤ c.fileSize
              omega
            · simp only [Aio.aprogress, hrb]
              omega
        · rw [if_neg hge]
          refine ⟨?_, ?_, hner⟩
          · intro hlt0
            have hc : c.fd < 0 := hlt0
            omega
          · intro _
            refine ⟨⟨hfd0, hfs, Or.inl ⟨buf, rfl, hlen, ?_, hoff0⟩⟩, rfl, ?_⟩
            · show c.responseSent + min n (buf.length - c.responseSent) < H
              omega
            · simp only [Aio.aprogress, hrb]
              omega
  · simp only [Aio.handle_client_write, hrb]
    obtain ⟨p, hp⟩ := Option.isSome_iff_exists.mp hfs
    simp only [hp]
    by_cases h0 : min Aio.kResponseBufferSize (c.fileSize - c.fileOffset) = 0
    · rw [if_pos h0]
      rw [hKA] at h0
      refine ⟨?_, ?_, hne⟩
      · intro _
        simp only [Aio.aprogress, hrb]
        omega
      · intro hcl
        have hcl' : ¬ (-1 : Int) < 0 := hcl
        exact absurd (by decide) hcl'
    · rw [if_neg h0]
      cases sched with
      | nil => exact aStep_id H s c [] hInv noErr_nil
      | cons ev rest =>
        have hner : noErr rest := noErr_tail hne
        cases ev with
        | wouldBlock => exact aStep_id H s c rest hInv hner
        | errClose => exact (noErr_head_false hne).elim
        | ok n =>
          simp only []
          have hb : min n (min Aio.kResponseBufferSize
              (c.fileSize - c.fileOffset)) ≤ c.fileSize - c.fileOffset :=
            le_trans (Nat.min_le_right _ _) (Nat.min_le_right _ _)
          by_cases hge : c.fileOffset + min n (min Aio.kResponseBufferSize
              (c.fileSize - c.fileOffset)) ≥ c.fileSize
          · rw [if_pos hge]
            refine ⟨?_, ?_, hner⟩
            · intro _
              simp only [Aio.aprogress, hrb]
              omega
            · intro hcl
              have hcl' : ¬ (-1 : Int) < 0 := hcl
              exact absurd (by decide) hcl'
          · rw [if_neg hge]
            refine ⟨?_, ?_, hner⟩
            · intro hlt0
              have hc : c.fd < 0 := hlt0
              omega
            · intro _
              refine ⟨⟨hfd0, rfl, Or.inr ⟨rfl, ?_⟩⟩, rfl, ?_⟩
              · show c.fileOffset + min n (min Aio.kResponseBufferSize
                  (c.fileSize - c.fileOffset)) ≤ c.fileSize
                omega
              · simp only [Aio.aprogress, hrb]
                omega

lemma runAWrites_total (H : Nat) (fuel : Nat) :
    ∀ (s : Aio.AServer) (c : Aio.AClient) (sched : List KQ.SendRes)
      (s' : Aio.AServer) (c' : Aio.AClient) (total : Nat),
      ainv H c → noErr sched →
      Aio.runAWrites fuel s c sched = (s', c', true, total) →
      Aio.aprogress H c + total = H + c.fileSize := by
  induction fuel with
  | zero =>
    intro s c sched s' c' total _ _ h
    unfold Aio.runAWrites at h
    simp only [Prod.mk.injEq] at h
    exact absurd h.2.2.1 (by decide)
  | succ fuel ih =>
    intro s c sched s' c' total hInv hne h
    obtain ⟨sa, sbq, sn⟩ := handle_client_write_step H s c sched hInv hne
    unfold Aio.runAWrites at h
    rcases hE : Aio.handle_client_write s c sched with ⟨s1, c1, acc, rest⟩
    rw [hE] at h
    simp only [] at h
    have sa' : c1.fd < 0 → Aio.aprogress H c + acc = H + c.fileSize := by
      rw [hE] at sa; exact sa
    have sb' : ¬ c1.fd < 0 → ainv H c1 ∧ c1.fileSize = c.fileSize ∧
        Aio.aprogress H c1 = Aio.aprogress H c + acc := by
      rw [hE] at sbq; exact sbq
    have sn' : noErr rest := by rw [hE] at sn; exact sn
    by_cases hfdlt : c1.fd < 0
    · rw [if_pos hfdlt] at h
      have htot : acc = total := congrArg (fun t => t.2.2.2) h
      rw [← htot]
      exact sa' hfdlt
    · rw [if_neg hfdlt] at h
      rcases hR : Aio.runAWrites fuel s1 c1 rest with ⟨s2, c2, done2, tot2⟩
      rw [hR] at h
      simp only [] at h
      have hdone : done2 = true := congrArg (fun t => t.2.2.1) h
      have htot : acc + tot2 = total := congrArg (fun t => t.2.2.2) h
      obtain ⟨hi1, hi2, hi3⟩ := sb' hfdlt
      have hrec := ih s1 c1 rest s2 c2 tot2 hi1 sn' (by rw [hR, hdone])
      rw [hi3, hi2] at hrec
      omega

/-- C7: with a socket that never fails (only short writes and would-block),
both transmitters resume from the offset advanced exactly by the bytes the
socket actually accepted, and a transmission that starts at the beginning of
the staged header and runs to connection teardown puts exactly header length
plus file length bytes on the wire — no byte duplicated and no gap.  Stated
for the kqueue variant per call (`send_response`) and over a whole run
(`runWrites`), and for the select variant per call (`handle_client_write`)
and over a whole run (`runAWrites`). -/
theorem C7_short_writes_resume_and_total_exact :
    (∀ (c : KQ.Conn) (sched : List KQ.SendRes), sendInv c → noErr sched →
      KQ.progress (KQ.send_response c sched).1 =
        KQ.progress c + (KQ.send_response c sched).2.2.1) ∧
    (∀ (fuel : Nat) (c : KQ.Conn) (sched : List KQ.SendRes) (c' : KQ.Conn)
        (total : Nat),
      c.state = KQ.CState.sendingHeader → c.responseSent = 0 →
      c.fileOffset = 0 → c.fileFd.isSome = true → 0 < c.responseBuf.length →
      noErr sched → KQ.runWrites fuel c sched = (c', true, total) →
      total = c.responseBuf.length + c.fileSize) ∧
    (∀ (H : Nat) (s : Aio.AServer) (c : Aio.AClient)
        (sched : List KQ.SendRes),
      ainv H c → noErr sched →
      ¬ (Aio.handle_client_write s c sched).2.1.fd < 0 →
      Aio.aprogress H (Aio.handle_client_write s c sched).2.1 =
        Aio.aprogress H c + (Aio.handle_client_write s c sched).2.2.1) ∧
    (∀ (H : Nat) (fuel : Nat) (s : Aio.AServer) (c : Aio.AClient)
        (sched : List KQ.SendRes) (s' : Aio.AServer) (c' : Aio.AClient)
        (total : Nat) (buf : Str),
      c.responseBuf = some buf → buf.length = H → 0 < H → 0 ≤ c.fd →
      c.responseSent = 0 → c.fileOffset = 0 → c.fileFd.isSome = true →
      noErr sched → Aio.runAWrites fuel s c sched = (s', c', true, total) →
      total = H + c.fileSize) := by
  refine ⟨?_, ?_, ?_, ?_⟩
  · intro c sched hInv hne
    exact (send_response_step c sched hInv hne).2.2.1
  · intro fuel c sched c' total hst hsent hoff hfd hlen hne hrun
    have hInv : sendInv c := Or.inl ⟨hst, by omega, hoff, hfd⟩
    have hT := runWrites_total fuel c sched c' total hInv hne hrun
    rw [progress_of_header_state c hst, hsent] at hT
    omega
  · intro H s c sched hInv hne hopen
    exact ((handle_client_write_step H s c sched hInv hne).2.1 hopen).2.2
  · intro H fuel s c sched s' c' total buf hrb hlen hpos hfd0 hsent hoff
      hfs hne hrun
    have hInv : ainv H c := ⟨hfd0, hfs, Or.inl ⟨buf, hrb, hlen, by omega, hoff⟩⟩
    have hT := runAWrites_total H fuel s c sched s' c' total hInv hne hrun
    rw [show Aio.aprogress H c = c.responseSent + c.fileOffset from by
      simp only [Aio.aprogress, hrb]] at hT
    omega

/-- Witness for C7: a 2-byte header followed by a 3-byte file, drained by
the short-write schedule 1, 1, 2, 3, puts exactly 5 bytes on the wire. -/
theorem C7_short_writes_resume_and_total_exact_witness :
    (KQ.runWrites 5 CE.kqSendConn CE.kqSched).2.2 =
      CE.kqSendConn.responseBuf.length + CE.kqSendConn.fileSize :=
  C7_short_writes_resume_and_total_exact.2.1 5 CE.kqSendConn CE.kqSched
    (KQ.runWrites 5 CE.kqSendConn CE.kqSched).1
    (KQ.runWrites 5 CE.kqSendConn CE.kqSched).2.2
    rfl rfl rfl rfl (by decide)
    (by show KQ.SendRes.errClose ∉ CE.kqSched; decide)
    rfl
